import Mathlib

/-!
Verification of the 3x-ui-manager client library.

This file gives a shallow embedding, in Lean, of the parts of the library
that the specification's testable claims are about:

* the decoded-JSON data model (`PyJson`) together with Python's truthiness
  and `len` semantics on such values;
* the response validator `check_xui_response_validity` (src/util.py);
* the deterministic identifier helpers `base64_from_string`, `sub_from_tgid`,
  `get_telegram_uuid` and `generate_email_from_tgid_inbid` (src/util.py);
* `XUIClient.login` and the retry loop of `XUIClient._safe_request`
  (src/api.py), modelled as a pure transition function over an explicit
  transport (attempt number to stubbed HTTP response) that also records the
  observable events (HTTP attempts, validator runs, sleeps, re-logins);
* `Clients.add_client` over its typed input shapes and
  `Clients.delete_client_by_email` together with the facade
  `XUIClient.delete_client_by_tgid_all_inbounds` (src/endpoints.py,
  src/api.py);
* Python's `json.dumps` / `json.loads` as used by
  `Inbound.parse_json_fields` / `Inbound.stringify_json_fields`
  (src/code/models.py), restricted to integer-valued JSON numbers.

Python exceptions are modelled by the `PyError` type; a function that can
raise returns `Except PyError`. Wall-clock time is modelled by an explicit
`now` parameter, frozen for the duration of one call.
-/

/-- Kind of `RuntimeError` raised by the library; each constructor stands for
one concrete `raise RuntimeError(...)` site in the source (the interpolated
message text is not modelled). -/
inductive RuntimeErrorKind
  /-- The validator's raise: "Validator got something very unexpected". -/
  | validatorFormat
  /-- The raise "Too many retries" in `_safe_request`. -/
  | tooManyRetries
  /-- The raise "Wrong status code: ..." in `_safe_request`. -/
  | wrongStatusCode
  /-- The raise "Server returned a 404, and the session should still be
  valid" in `_safe_request`. -/
  | genuineNotFound
  /-- The raise "For some reason safe_request didn't exit" after the loop. -/
  | retryLoopExhausted
  /-- The raise "Error: server returned a status code of ..." in `login`. -/
  | loginBadStatus
deriving DecidableEq, Repr

/-- Kind of `ValueError` raised by the library. -/
inductive ValueErrorKind
  /-- The raise "Error: wrong credentials or failed login" in `login`. -/
  | wrongCredentials
deriving DecidableEq, Repr

/-- A Python exception, as far as the modelled code can raise one. -/
inductive PyError
  | runtimeError (kind : RuntimeErrorKind)
  | valueError (kind : ValueErrorKind)
  /-- Attribute lookup failure, e.g. `.keys()` or `.lower()` on a value
  without that attribute. -/
  | attributeError
  /-- A `TypeError`, e.g. `len()` of an unsized value or subscripting a
  non-container. -/
  | typeError
  /-- A `KeyError` from a dict subscript on a missing key. -/
  | keyError
deriving DecidableEq, Repr

/-- A decoded JSON value as Python's `json.loads` produces it: `None`, `bool`,
`int`, `str`, `list`, `dict` (an insertion-ordered association list with
string keys). JSON numbers are modelled as integers only; float-valued
numbers are outside this model. -/
inductive PyJson
  | null
  | bool (b : Bool)
  | int (n : Int)
  | str (s : String)
  | arr (items : List PyJson)
  | obj (entries : List (String × PyJson))

/-- Python truthiness (`if value:`) of a decoded JSON value. -/
def pyTruthy : PyJson → Bool
  | .null => false
  | .bool b => b
  | .int n => decide (n ≠ 0)
  | .str s => decide (s.length ≠ 0)
  | .arr items => decide (items.length ≠ 0)
  | .obj entries => decide (entries.length ≠ 0)

/-- Python `len()` on a decoded JSON value: defined on `str`, `list` and
`dict`, a `TypeError` (modelled as `none`) on `None`, `bool` and `int`. -/
def pyLen : PyJson → Option Nat
  | .str s => some s.length
  | .arr items => some items.length
  | .obj entries => some entries.length
  | _ => none

/-- Python `tuple(d.keys())` of a dict: the keys in insertion order. -/
def dictKeys (entries : List (String × PyJson)) : List String :=
  entries.map Prod.fst

/-- Python `d[key]` on a dict, `none` modelling the `KeyError` case. -/
def dictGet (entries : List (String × PyJson)) (key : String) : Option PyJson :=
  (entries.find? (fun kv => kv.1 == key)).map Prod.snd

/-- Python substring containment `sub in s`. -/
def strContainsSub (s sub : String) : Bool :=
  decide (sub.toList <:+: s.toList)

/-- Python `str.lower()` on one character (ASCII range, the only characters
the modelled messages use). -/
def pyCharLower (c : Char) : Char :=
  if 65 ≤ c.toNat && c.toNat ≤ 90 then Char.ofNat (c.toNat + 32) else c

/-- Python `str.lower()`. -/
def pyLower (s : String) : String := String.mk (s.toList.map pyCharLower)

/-- Embedding of `util.check_xui_response_validity` (src/util.py, lines
71-88) on an already-decoded JSON value. The source checks
`len(json_resp) == 3`, then `tuple(json_resp.keys()) == ("success", "msg",
"obj")`, reads `json_resp["success"]` and `json_resp["msg"]`, returns "OK"
when `success` is truthy, "DB_LOCKED" when `msg.lower()` contains both
"database" and "locked" and `success` is falsy, "ERROR" otherwise, and
raises `RuntimeError` when either shape check fails. `len` of an unsized
value raises `TypeError`; `.keys()` on a sized non-dict raises
`AttributeError`; `.lower()` on a non-string `msg` raises
`AttributeError`. -/
def check_xui_response_validity (json_resp : PyJson) : Except PyError String :=
  match pyLen json_resp with
  | none => .error .typeError
  | some n =>
    if n = 3 then
      match json_resp with
      | .obj entries =>
        if dictKeys entries = ["success", "msg", "obj"] then
          match dictGet entries "success", dictGet entries "msg" with
          | some success, some msg =>
            if pyTruthy success then .ok "OK"
            else
              match msg with
              | .str m =>
                if strContainsSub (pyLower m) "database"
                    && strContainsSub (pyLower m) "locked"
                    && !(pyTruthy success) then
                  .ok "DB_LOCKED"
                else
                  .ok "ERROR"
              | _ => .error .attributeError
          | _, _ => .error .keyError
        else .error (.runtimeError .validatorFormat)
      | _ => .error .attributeError
    else .error (.runtimeError .validatorFormat)

/-- Claim-side shape predicate: the decoded value is an object whose key set
is exactly the three keys `success`, `msg`, `obj` (in any order, no
duplicates). This follows the specification's words "an object with exactly
three keys named `success`, `msg`, `obj`"; the source compares the ordered
key tuple instead. -/
def hasEnvelopeKeys : PyJson → Bool
  | .obj entries => (dictKeys entries).isPerm ["success", "msg", "obj"]
  | _ => false

/-- Lowercased-message test used by the DB_LOCKED classification. -/
def msgSaysDbLocked (m : String) : Bool :=
  strContainsSub (pyLower m) "database" && strContainsSub (pyLower m) "locked"

/-! ### Identifier helpers (src/util.py) -/

/-- The standard base64 alphabet, as `base64.b64encode` uses it. -/
def base64Alphabet : List Char :=
  "ABCDEFGHIJKLMNOPQRSTUVWXYZabcdefghijklmnopqrstuvwxyz0123456789+/".toList

/-- The base64 digit for a 6-bit value. -/
def base64Digit (n : Nat) : Char := base64Alphabet.getD n '='

/-- Standard base64 of a byte list, with `=` padding, as
`base64.b64encode` produces. -/
def base64EncodeBytes : List Nat → List Char
  | [] => []
  | [b1] =>
    [base64Digit (b1 / 4), base64Digit (b1 % 4 * 16), '=', '=']
  | [b1, b2] =>
    [base64Digit (b1 / 4), base64Digit (b1 % 4 * 16 + b2 / 16),
     base64Digit (b2 % 16 * 4), '=']
  | b1 :: b2 :: b3 :: rest =>
    [base64Digit (b1 / 4), base64Digit (b1 % 4 * 16 + b2 / 16),
     base64Digit (b2 % 16 * 4 + b3 / 64), base64Digit (b3 % 64)]
      ++ base64EncodeBytes rest

/-- UTF-8 bytes of one character. -/
def utf8BytesOfChar (c : Char) : List Nat :=
  let n := c.toNat
  if n < 128 then [n]
  else if n < 2048 then [192 + n / 64, 128 + n % 64]
  else if n < 65536 then [224 + n / 4096, 128 + n / 64 % 64, 128 + n % 64]
  else [240 + n / 262144, 128 + n / 4096 % 64, 128 + n / 64 % 64, 128 + n % 64]

/-- UTF-8 bytes of a string, as Python's `str.encode("utf-8")`. -/
def utf8Bytes (s : String) : List Nat :=
  s.toList.flatMap utf8BytesOfChar

/-- Embedding of `util.base64_from_string`: base64 of the UTF-8 bytes. The
source accepts an `omit_trailing_equals` flag but never reads it. -/
def base64_from_string (s : String) (_omit_trailing_equals : Bool := false) : String :=
  String.mk (base64EncodeBytes (utf8Bytes s))

/-- Embedding of `util.sub_from_tgid`. -/
def sub_from_tgid (telegram_id : Int) : String :=
  base64_from_string (toString telegram_id)

/-- Embedding of the `ensure_2_digits` lambda in src/util.py. -/
def ensure_2_digits (x : Nat) : String :=
  if x ≥ 10 then toString x else "0" ++ toString x

/-- The ambient wall clock as `get_telegram_uuid` reads it
(`datetime.now(UTC)` fields used by the non-fixed branch). -/
structure PyDateTime where
  year : Nat
  month : Nat
  day : Nat
  hour : Nat
  minute : Nat

/-- Embedding of `util.get_telegram_uuid`. The source's implicit
`datetime.now(UTC)` is made an explicit `now` argument; the `fixed` branch
(`fixed = true`, the default) never reads it. -/
def get_telegram_uuid (telegram_id : Int) (fixed : Bool) (now : PyDateTime) : String :=
  let zeros : Nat := 12 - (toString telegram_id).length
  let resid : String := String.mk (List.replicate zeros '0') ++ toString telegram_id
  if fixed then
    "11111111-1111-1111-1111-" ++ resid
  else
    toString now.year ++ ensure_2_digits now.month ++ ensure_2_digits now.day
      ++ "-" ++ ensure_2_digits now.hour ++ ensure_2_digits now.minute
      ++ "-1111-1111-" ++ resid

/-- Embedding of `util.generate_email_from_tgid_inbid`. -/
def generate_email_from_tgid_inbid (telegram_id : Int) (inbound_id : Int) : String :=
  "TG" ++ toString telegram_id ++ "IB" ++ toString inbound_id

/-! ### Session wrapper (src/api.py) -/

/-- A stubbed HTTP response: status code and decoded JSON body. -/
structure Resp where
  status : Nat
  body : PyJson

/-- Configuration state of the session wrapper that `_safe_request` reads:
`max_retries`, `retry_delay` and `session_duration`. -/
structure SessionConfig where
  maxRetries : Nat
  retryDelay : Nat
  sessionDuration : Int

/-- Embedding of `XUIClient.login` (src/api.py, lines 237-263) against a
stubbed login response. On HTTP 200 with a truthy `success` field it
returns the new value of `session_start` (namely `some now`); on 200 with a
falsy `success` it raises `ValueError`; on any other status it raises
`RuntimeError`. Subscripting a non-dict body raises `TypeError`; a missing
`success` key raises `KeyError`. -/
def XUIClient.login (login_resp : Resp) (now : Int) : Except PyError (Option Int) :=
  if login_resp.status = 200 then
    match login_resp.body with
    | .obj entries =>
      match dictGet entries "success" with
      | some v =>
        if pyTruthy v then .ok (some now)
        else .error (.valueError .wrongCredentials)
      | none => .error .keyError
    | _ => .error .typeError
  else .error (.runtimeError .loginBadStatus)

/-- Observable event of one `_safe_request` call: an HTTP attempt (with the
attempt number and the status code received), a run of the response
validator, a retry sleep, or a call to `login`. -/
inductive ReqEvent
  | http (attempt : Nat) (status : Nat)
  | validate (attempt : Nat) (status : Nat)
  | sleep
  | loginCall
deriving DecidableEq, Repr

/-- Final outcome of one `_safe_request` call: a returned response, or a
raised exception. -/
inductive ReqOutcome
  | success (resp : Resp)
  | failure (e : PyError)

/-- Staleness test of `_safe_request`'s 404 branch:
`self.session_start is None or now - self.session_start > self.session_duration`. -/
def sessionIsStale (session_start : Option Int) (now : Int) (session_duration : Int) : Bool :=
  match session_start with
  | none => true
  | some s => decide (now - s > session_duration)

/-- Result of one iteration of the `_safe_request` retry loop: either the
call finishes (return or raise), or the loop continues with a possibly
updated `session_start`. -/
inductive StepResult
  | done (events : List ReqEvent) (out : ReqOutcome)
  | retry (events : List ReqEvent) (session_start : Option Int)

/-- Events recorded by one loop iteration, in either case. -/
def StepResult.events : StepResult → List ReqEvent
  | .done evs _ => evs
  | .retry evs _ => evs

/-- One iteration of the `async for attempt in async_range(self.max_retries)`
loop body of `XUIClient._safe_request` (src/api.py, lines 132-156).
`transport` maps the attempt number to the stubbed response of the HTTP
request issued in that iteration; `login_resp` is the stubbed response the
re-login would receive; `now` is the frozen wall clock. -/
def XUIClient.safeRequestStep (cfg : SessionConfig) (now : Int)
    (transport : Nat → Resp) (login_resp : Resp)
    (attempt : Nat) (session_start : Option Int) : StepResult :=
  let resp := transport attempt
  if resp.status / 100 ≠ 2 then
    if resp.status = 404 then
      if sessionIsStale session_start now cfg.sessionDuration then
        match XUIClient.login login_resp now with
        | .ok newStart =>
          .retry [.http attempt resp.status, .loginCall] newStart
        | .error e =>
          .done [.http attempt resp.status, .loginCall] (.failure e)
      else
        .done [.http attempt resp.status]
          (.failure (.runtimeError .genuineNotFound))
    else
      .done [.http attempt resp.status]
        (.failure (.runtimeError .wrongStatusCode))
  else
    match check_xui_response_validity resp.body with
    | .error e =>
      .done [.http attempt resp.status, .validate attempt resp.status] (.failure e)
    | .ok status =>
      if status = "OK" then
        .done [.http attempt resp.status, .validate attempt resp.status]
          (.success resp)
      else if status = "DB_LOCKED" then
        if attempt + 1 ≥ cfg.maxRetries then
          .done [.http attempt resp.status, .validate attempt resp.status]
            (.failure (.runtimeError .tooManyRetries))
        else
          .retry [.http attempt resp.status, .validate attempt resp.status, .sleep]
            session_start
      else
        .done [.http attempt resp.status, .validate attempt resp.status]
          (.success resp)

/-- The `_safe_request` retry loop over the remaining attempt numbers.
Falling off the end of the attempt list is the source's final raise after
the loop. -/
def XUIClient.safeRequestLoop (cfg : SessionConfig) (now : Int)
    (transport : Nat → Resp) (login_resp : Resp) :
    List Nat → Option Int → List ReqEvent × ReqOutcome
  | [], _ => ([], .failure (.runtimeError .retryLoopExhausted))
  | attempt :: rest, session_start =>
    match XUIClient.safeRequestStep cfg now transport login_resp attempt session_start with
    | .done evs out => (evs, out)
    | .retry evs newStart =>
      let next := XUIClient.safeRequestLoop cfg now transport login_resp rest newStart
      (evs ++ next.1, next.2)

/-- Embedding of `XUIClient._safe_request` (src/api.py, lines 112-157):
the retry loop run over attempts `0, ..., max_retries - 1`, returning the
observable event list and the outcome. -/
def XUIClient.safe_request (cfg : SessionConfig) (now : Int)
    (transport : Nat → Resp) (login_resp : Resp)
    (session_start : Option Int) : List ReqEvent × ReqOutcome :=
  XUIClient.safeRequestLoop cfg now transport login_resp
    (List.range cfg.maxRetries) session_start

/-- Number of HTTP attempts recorded in an event list. -/
def httpCount (evs : List ReqEvent) : Nat :=
  (evs.filter fun e => match e with | .http _ _ => true | _ => false).length

/-- Number of `login` calls recorded in an event list. -/
def loginCallCount (evs : List ReqEvent) : Nat :=
  (evs.filter fun e => match e with | .loginCall => true | _ => false).length

/-! ### Client endpoint operations (src/endpoints.py) -/

/-- Typed client record, after `models.SingleInboundClient`
(src/code/models.py). Fields that none of the modelled operations branch on
keep their source defaults. -/
structure SingleInboundClient where
  uuid : String
  security : String := ""
  password : String := ""
  flow : String := ""
  email : String
  limit_ip : Int := 20
  limit_gb : Int := 0
  expiry_time : Int := 0
  enable : Bool := true
  subscription_id : String := ""
  comment : String := ""

/-- The nested `Settings` holder of `models.InboundClients`. -/
structure InboundClientsSettings where
  clients : List SingleInboundClient

/-- Typed bulk-collection record, after `models.InboundClients`
(src/code/models.py): an optional parent inbound id (alias `id`, default
`None`) and the settings with the client list. -/
structure InboundClients where
  parent_id : Option Int := none
  settings : InboundClientsSettings

/-- Typed input shapes of `Clients.add_client`. The source also accepts a
raw `dict`, which it first converts with `str()` and re-parses; that branch
is unreachable for the typed values this model covers and is not part of
the embedding. -/
inductive AddClientInput
  | single (client : SingleInboundClient)
  | bulk (clients : InboundClients)

/-- Python truthiness of an `int | None` value (`if inbound_id:`). -/
def pyTruthyOptInt : Option Int → Bool
  | none => false
  | some n => decide (n ≠ 0)

/-- Embedding of `Clients.add_client` (src/endpoints.py, lines 96-132) on
its typed input shapes. The result is the normalized `InboundClients`
payload `final` that the method serializes and POSTs to `addClient`; an
`error` result models a raised exception. The `SingleInboundClient` branch
wraps the client as `InboundClients(id=inbound_id,
settings=Settings(clients=[client]))`; the `InboundClients` branch
overwrites `parent_id` only when `inbound_id` is truthy. -/
def Clients.add_client (client : AddClientInput) (inbound_id : Option Int) :
    Except PyError InboundClients :=
  match client with
  | .single c =>
    .ok (InboundClients.mk inbound_id (InboundClientsSettings.mk [c]))
  | .bulk b =>
    .ok (if pyTruthyOptInt inbound_id then InboundClients.mk inbound_id b.settings else b)

/-- Inbound record, after `models.Inbound` (src/code/models.py), restricted
to the fields the modelled facade operations read. -/
structure Inbound where
  id : Int
  remark : String

/-- Embedding of `Clients.delete_client_by_email` (src/endpoints.py, lines
180-183): one POST to `panel/api/inbounds/{inbound_id}/delClient/{email}`.
The `post` argument is the session's stubbed POST transport, mapping the
request URL to the response. -/
def Clients.delete_client_by_email (email : String) (inbound_id : Int)
    (post : String → Resp) : Resp :=
  post ("panel/api/inbounds/" ++ toString inbound_id ++ "/delClient/" ++ email)

/-- Embedding of `XUIClient.delete_client_by_tgid_all_inbounds`
(src/api.py, lines 476-493): iterate the memoized production-inbound list
in order, derive the per-inbound email, issue one delete call per inbound,
and collect every response. -/
def XUIClient.delete_client_by_tgid_all_inbounds (telegram_id : Int)
    (production_inbounds : List Inbound) (post : String → Resp) : List Resp :=
  match production_inbounds with
  | [] => []
  | inbound :: rest =>
    let email := generate_email_from_tgid_inbid telegram_id inbound.id
    let resp := Clients.delete_client_by_email email inbound.id post
    resp :: XUIClient.delete_client_by_tgid_all_inbounds telegram_id rest post

/-! ### Python's `json.dumps` (ensure_ascii=False, default separators) -/

/-- Lowercase hexadecimal digit, as CPython's `\uXXXX` escapes print it. -/
def toHexChar (n : Nat) : Char :=
  if n < 10 then Char.ofNat (48 + n) else Char.ofNat (87 + n)

/-- Opening curly brace character. -/
def lbrace : Char := Char.ofNat 123

/-- Closing curly brace character. -/
def rbrace : Char := Char.ofNat 125

/-- JSON escape of one character, as `json.dumps(..., ensure_ascii=False)`
emits it: `"` and `\` and the five short control escapes as two-character
escapes, any other control character below U+0020 as `\u00xx`, everything
else verbatim. -/
def py_escape_char (c : Char) : List Char :=
  if c = Char.ofNat 34 then ['\\', Char.ofNat 34]
  else if c = '\\' then ['\\', '\\']
  else if c = '\n' then ['\\', 'n']
  else if c = '\r' then ['\\', 'r']
  else if c = '\t' then ['\\', 't']
  else if c = Char.ofNat 8 then ['\\', 'b']
  else if c = Char.ofNat 12 then ['\\', 'f']
  else if c.toNat < 32 then
    ['\\', 'u', '0', '0', toHexChar (c.toNat / 16), toHexChar (c.toNat % 16)]
  else [c]

/-- Rendered JSON string literal: quote, escaped characters, quote. -/
def renderString (s : String) : List Char :=
  Char.ofNat 34 :: (s.toList.flatMap py_escape_char ++ [Char.ofNat 34])

/-- Decimal digit characters of a natural number, most significant first. -/
def natDecimalChars (n : Nat) : List Char :=
  if h : n < 10 then [Char.ofNat (48 + n)]
  else natDecimalChars (n / 10) ++ [Char.ofNat (48 + n % 10)]
termination_by n
decreasing_by exact Nat.div_lt_self (by omega) (by omega)

/-- Decimal character run of an integer, as Python's `str(int)` prints it. -/
def intChars (i : Int) : List Char :=
  if i < 0 then '-' :: natDecimalChars i.natAbs else natDecimalChars i.natAbs

mutual
/-- Characters of `json.dumps(value, ensure_ascii=False)` with the default
`", "` and `": "` separators. -/
def renderValue : PyJson → List Char
  | .null => 'n' :: 'u' :: 'l' :: ['l']
  | .bool true => 't' :: 'r' :: 'u' :: ['e']
  | .bool false => 'f' :: 'a' :: 'l' :: 's' :: ['e']
  | .int n => intChars n
  | .str s => renderString s
  | .arr items => '[' :: (renderItems items ++ [']'])
  | .obj entries => lbrace :: (renderEntries entries ++ [rbrace])
/-- Rendered array elements, separated by `", "`. -/
def renderItems : List PyJson → List Char
  | [] => []
  | v :: rest => renderValue v ++ renderItemsNext rest
/-- Continuation of `renderItems` after the first element. -/
def renderItemsNext : List PyJson → List Char
  | [] => []
  | v :: rest => ',' :: ' ' :: (renderValue v ++ renderItemsNext rest)
/-- Rendered object members `"key": value`, separated by `", "`. -/
def renderEntries : List (String × PyJson) → List Char
  | [] => []
  | (k, v) :: rest =>
    renderString k ++ ':' :: ' ' :: (renderValue v ++ renderEntriesNext rest)
/-- Continuation of `renderEntries` after the first member. -/
def renderEntriesNext : List (String × PyJson) → List Char
  | [] => []
  | (k, v) :: rest =>
    ',' :: ' ' :: (renderString k ++ ':' :: ' ' :: (renderValue v ++ renderEntriesNext rest))
end

/-- Embedding of `json.dumps(value, ensure_ascii=False)`. -/
def json_dumps (v : PyJson) : String := String.mk (renderValue v)

/-! ### Python's `json.loads` -/

/-- JSON whitespace, as `json.loads` skips it. -/
def isJsonWs (c : Char) : Bool :=
  c = ' ' || c = '\t' || c = '\n' || c = '\r'

/-- Drop leading JSON whitespace. -/
def skipWsChars : List Char → List Char
  | [] => []
  | c :: rest => if isJsonWs c then skipWsChars rest else c :: rest

/-- ASCII decimal digit test. -/
def isDigitChar (c : Char) : Bool :=
  48 ≤ c.toNat && c.toNat ≤ 57

/-- Split off the longest leading run of decimal digits. -/
def digitRun : List Char → List Char × List Char
  | [] => ([], [])
  | c :: rest =>
    if isDigitChar c then
      let p := digitRun rest
      (c :: p.1, p.2)
    else ([], c :: rest)

/-- Numeric value of a run of decimal digit characters. -/
def digitsToNat (ds : List Char) : Nat :=
  ds.foldl (fun acc c => acc * 10 + (c.toNat - 48)) 0

/-- Value of one hexadecimal digit character, if it is one. -/
def hexDigitVal (c : Char) : Option Nat :=
  if 48 ≤ c.toNat && c.toNat ≤ 57 then some (c.toNat - 48)
  else if 97 ≤ c.toNat && c.toNat ≤ 102 then some (c.toNat - 87)
  else if 65 ≤ c.toNat && c.toNat ≤ 70 then some (c.toNat - 55)
  else none

/-- Value of a four-digit hexadecimal escape payload. -/
def hexQuad (a b c d : Char) : Option Nat :=
  match hexDigitVal a, hexDigitVal b, hexDigitVal c, hexDigitVal d with
  | some va, some vb, some vc, some vd => some (((va * 16 + vb) * 16 + vc) * 16 + vd)
  | _, _, _, _ => none

/-- Unescaped character of a two-character JSON escape. -/
def shortEscapeChar (c : Char) : Option Char :=
  if c = Char.ofNat 34 then some (Char.ofNat 34)
  else if c = '\\' then some '\\'
  else if c = '/' then some '/'
  else if c = 'b' then some (Char.ofNat 8)
  else if c = 'f' then some (Char.ofNat 12)
  else if c = 'n' then some '\n'
  else if c = 'r' then some '\r'
  else if c = 't' then some '\t'
  else none

/-- Parse the body of a JSON string literal after its opening quote, up to
and including the closing quote. Raw control characters are rejected, as
`json.loads` does in its default strict mode. -/
def parseStringBody : List Char → Option (List Char × List Char)
  | [] => none
  | c :: rest =>
    if c = Char.ofNat 34 then some ([], rest)
    else if c = '\\' then
      match rest with
      | [] => none
      | e :: rest2 =>
        if e = 'u' then
          match rest2 with
          | a :: b :: c2 :: d :: rest3 =>
            match hexQuad a b c2 d with
            | some n =>
              match parseStringBody rest3 with
              | some p => some (Char.ofNat n :: p.1, p.2)
              | none => none
            | none => none
          | _ => none
        else
          match shortEscapeChar e with
          | some ch =>
            match parseStringBody rest2 with
            | some p => some (ch :: p.1, p.2)
            | none => none
          | none => none
    else if c.toNat < 32 then none
    else
      match parseStringBody rest with
      | some p => some (c :: p.1, p.2)
      | none => none

/-- Parse an unsigned JSON integer numeral: a digit run without a leading
zero (except `0` itself), not followed by `.`, `e` or `E`. A numeral that
continues with a fraction or exponent denotes a float, which is outside
this integer-valued model. -/
def parseNatToken (cs : List Char) : Option (Nat × List Char) :=
  let p := digitRun cs
  match p.1 with
  | [] => none
  | d :: ds =>
    if d = '0' && !ds.isEmpty then none
    else
      match p.2 with
      | c :: _ =>
        if c = '.' || c = 'e' || c = 'E' then none
        else some (digitsToNat p.1, p.2)
      | [] => some (digitsToNat p.1, [])

/-- Parse a JSON integer numeral with optional leading minus sign. -/
def parseIntToken (cs : List Char) : Option (Int × List Char) :=
  match cs with
  | '-' :: rest =>
    match parseNatToken rest with
    | some p => some (-(p.1 : Int), p.2)
    | none => none
  | _ =>
    match parseNatToken cs with
    | some p => some ((p.1 : Int), p.2)
    | none => none

mutual
/-- Parse one JSON value after optional leading whitespace. The fuel
argument only forces termination; `json_loads` passes enough for any
input. -/
def parseValue (fuel : Nat) (cs : List Char) : Option (PyJson × List Char) :=
  match fuel with
  | 0 => none
  | fuel + 1 =>
    match skipWsChars cs with
    | [] => none
    | c :: rest =>
      if c = 'n' then
        match rest with
        | 'u' :: 'l' :: 'l' :: r => some (.null, r)
        | _ => none
      else if c = 't' then
        match rest with
        | 'r' :: 'u' :: 'e' :: r => some (.bool true, r)
        | _ => none
      else if c = 'f' then
        match rest with
        | 'a' :: 'l' :: 's' :: 'e' :: r => some (.bool false, r)
        | _ => none
      else if c = Char.ofNat 34 then
        match parseStringBody rest with
        | some p => some (.str (String.mk p.1), p.2)
        | none => none
      else if c = '[' then
        match skipWsChars rest with
        | [] => none
        | c2 :: r2 =>
          if c2 = ']' then some (.arr [], r2)
          else
            match parseItems fuel (c2 :: r2) with
            | some p => some (.arr p.1, p.2)
            | none => none
      else if c = lbrace then
        match skipWsChars rest with
        | [] => none
        | c2 :: r2 =>
          if c2 = rbrace then some (.obj [], r2)
          else
            match parseEntries fuel (c2 :: r2) with
            | some p => some (.obj p.1, p.2)
            | none => none
      else if c = '-' || isDigitChar c then
        match parseIntToken (c :: rest) with
        | some p => some (.int p.1, p.2)
        | none => none
      else none
/-- Parse one or more comma-separated array elements up to and including
the closing bracket. -/
def parseItems (fuel : Nat) (cs : List Char) : Option (List PyJson × List Char) :=
  match fuel with
  | 0 => none
  | fuel + 1 =>
    match parseValue fuel cs with
    | none => none
    | some p =>
      match skipWsChars p.2 with
      | ',' :: r2 =>
        match parseItems fuel r2 with
        | some q => some (p.1 :: q.1, q.2)
        | none => none
      | ']' :: r2 => some ([p.1], r2)
      | _ => none
/-- Parse one or more comma-separated object members up to and including
the closing brace. -/
def parseEntries (fuel : Nat) (cs : List Char) :
    Option (List (String × PyJson) × List Char) :=
  match fuel with
  | 0 => none
  | fuel + 1 =>
    match skipWsChars cs with
    | [] => none
    | c :: rest =>
      if c = Char.ofNat 34 then
        match parseStringBody rest with
        | none => none
        | some kp =>
          match skipWsChars kp.2 with
          | ':' :: r2 =>
            match parseValue fuel r2 with
            | none => none
            | some vp =>
              match skipWsChars vp.2 with
              | [] => none
              | c4 :: r4 =>
                if c4 = ',' then
                  match parseEntries fuel r4 with
                  | some q => some ((String.mk kp.1, vp.1) :: q.1, q.2)
                  | none => none
                else if c4 = rbrace then
                  some ([(String.mk kp.1, vp.1)], r4)
                else none
          | _ => none
      else none
end

/-- Embedding of `json.loads`, restricted to integer-valued numbers:
parse one value and require only whitespace after it; `none` models the
raised `JSONDecodeError`. -/
def json_loads (s : String) : Option PyJson :=
  let cs := s.toList
  match parseValue (cs.length + 1) cs with
  | some p => if skipWsChars p.2 = [] then some p.1 else none
  | none => none

/-! ### Inbound JSON-string fields (src/code/models.py) -/

/-- Value of an `Inbound.settings` / `streamSettings` / `sniffing` field
after validation: the `""` passthrough, or a parsed JSON value. -/
inductive JsonFieldValue
  | empty
  | parsed (v : PyJson)

/-- Embedding of the validator `Inbound.parse_json_fields`
(src/code/models.py, lines 243-259): the empty string passes through,
anything else goes through `json.loads`; `none` models the raise on
invalid JSON. -/
def Inbound.parse_json_fields (value : String) : Option JsonFieldValue :=
  if value = "" then some .empty
  else (json_loads value).map .parsed

/-- Embedding of the serializer `Inbound.stringify_json_fields`
(src/code/models.py, lines 262-277): the empty string passes through,
anything else goes through `json.dumps(value, ensure_ascii=False)`. -/
def Inbound.stringify_json_fields : JsonFieldValue → String
  | .empty => ""
  | .parsed v => json_dumps v

/-- Delimiter condition after a rendered integer numeral: the remaining
input is empty or starts with a character that cannot extend the numeral
(no digit, no fraction dot, no exponent letter). Every separator the
renderer emits after a value qualifies. -/
def numberStop : List Char → Bool
  | [] => true
  | c :: _ => !(isDigitChar c || c = '.' || c = 'e' || c = 'E')

/-! ## Lemmas about one iteration of the `_safe_request` loop -/

/-- Every loop iteration records exactly one HTTP attempt, as its first
event, carrying the attempt number and the status the transport answered. -/
theorem step_events_head (cfg : SessionConfig) (now : Int) (transport : Nat → Resp)
    (login_resp : Resp) (a : Nat) (st : Option Int) :
    ∃ tail, (XUIClient.safeRequestStep cfg now transport login_resp a st).events
      = ReqEvent.http a (transport a).status :: tail := by
  simp only [XUIClient.safeRequestStep]
  repeat' split
  all_goals exact ⟨_, rfl⟩

/-- A validator event can only appear for the iteration's own attempt, with
the transport's status for it, and only when that status is 2xx: the loop
body checks the HTTP status before running the body validator. -/
theorem step_validate_mem (cfg : SessionConfig) (now : Int) (transport : Nat → Resp)
    (login_resp : Resp) (a : Nat) (st : Option Int) (i s : Nat)
    (h : ReqEvent.validate i s
      ∈ (XUIClient.safeRequestStep cfg now transport login_resp a st).events) :
    i = a ∧ s = (transport a).status ∧ (transport a).status / 100 = 2 := by
  simp only [XUIClient.safeRequestStep] at h
  repeat' split at h
  all_goals simp_all [StepResult.events]

/-- A login event can only appear when the transport answered 404. -/
theorem step_login_needs_404 (cfg : SessionConfig) (now : Int) (transport : Nat → Resp)
    (login_resp : Resp) (a : Nat) (st : Option Int)
    (h : (transport a).status ≠ 404) :
    ReqEvent.loginCall ∉ (XUIClient.safeRequestStep cfg now transport login_resp a st).events := by
  simp only [XUIClient.safeRequestStep]
  repeat' split
  all_goals simp_all [StepResult.events]

/-- With a session that is still within its validity duration, an iteration
never calls login and never changes the session-start value. -/
theorem step_fresh_session (cfg : SessionConfig) (now : Int) (transport : Nat → Resp)
    (login_resp : Resp) (a : Nat) (st : Option Int)
    (h : sessionIsStale st now cfg.sessionDuration = false) :
    ReqEvent.loginCall ∉ (XUIClient.safeRequestStep cfg now transport login_resp a st).events
    ∧ (∀ evs st2, XUIClient.safeRequestStep cfg now transport login_resp a st
        = .retry evs st2 → st2 = st) := by
  constructor
  · simp only [XUIClient.safeRequestStep]
    repeat' split
    all_goals simp_all [StepResult.events]
  · intro evs st2 heq
    simp only [XUIClient.safeRequestStep] at heq
    repeat' split at heq
    all_goals simp_all

/-! ## Lemmas about the whole `_safe_request` loop -/

/-- The first event of a nonempty loop run is the HTTP attempt of the first
remaining attempt number. -/
theorem loop_events_head (cfg : SessionConfig) (now : Int) (transport : Nat → Resp)
    (login_resp : Resp) (a : Nat) (rest : List Nat) (st : Option Int) :
    ∃ tail, (XUIClient.safeRequestLoop cfg now transport login_resp (a :: rest) st).1
      = ReqEvent.http a (transport a).status :: tail := by
  obtain ⟨t, ht⟩ := step_events_head cfg now transport login_resp a st
  cases hstep : XUIClient.safeRequestStep cfg now transport login_resp a st with
  | done evs out =>
    rw [hstep] at ht
    simp only [XUIClient.safeRequestLoop, hstep]
    exact ⟨t, ht⟩
  | retry evs st2 =>
    rw [hstep] at ht
    simp only [XUIClient.safeRequestLoop, hstep]
    simp only [StepResult.events] at ht
    exact ⟨_, by rw [ht]; rfl⟩

/-- Validator events over the whole loop: the body validator runs only on a
response whose HTTP status the loop has already found to be 2xx, and the
recorded status is the transport's status for that attempt. -/
theorem loop_validate_mem (cfg : SessionConfig) (now : Int) (transport : Nat → Resp)
    (login_resp : Resp) :
    ∀ (attempts : List Nat) (st : Option Int) (i s : Nat),
      ReqEvent.validate i s
        ∈ (XUIClient.safeRequestLoop cfg now transport login_resp attempts st).1 →
      s = (transport i).status ∧ s / 100 = 2 := by
  intro attempts
  induction attempts with
  | nil =>
    intro st i s h
    simp [XUIClient.safeRequestLoop] at h
  | cons a rest ih =>
    intro st i s h
    cases hstep : XUIClient.safeRequestStep cfg now transport login_resp a st with
    | done evs out =>
      simp only [XUIClient.safeRequestLoop, hstep] at h
      have hm := step_validate_mem cfg now transport login_resp a st i s
        (by rw [hstep]; exact h)
      refine ⟨?_, ?_⟩
      · rw [hm.1]; exact hm.2.1
      · rw [hm.2.1]; exact hm.2.2
    | retry evs st2 =>
      simp only [XUIClient.safeRequestLoop, hstep] at h
      rcases List.mem_append.mp h with h1 | h2
      · have hm := step_validate_mem cfg now transport login_resp a st i s
          (by rw [hstep]; exact h1)
        refine ⟨?_, ?_⟩
        · rw [hm.1]; exact hm.2.1
        · rw [hm.2.1]; exact hm.2.2
      · exact ih st2 i s h2

/-- When no response of the transport carries status 404, the loop never
calls login. -/
theorem loop_no_login_without_404 (cfg : SessionConfig) (now : Int)
    (transport : Nat → Resp) (login_resp : Resp)
    (h404 : ∀ i, (transport i).status ≠ 404) :
    ∀ (attempts : List Nat) (st : Option Int),
      ReqEvent.loginCall
        ∉ (XUIClient.safeRequestLoop cfg now transport login_resp attempts st).1 := by
  intro attempts
  induction attempts with
  | nil =>
    intro st
    simp [XUIClient.safeRequestLoop]
  | cons a rest ih =>
    intro st
    cases hstep : XUIClient.safeRequestStep cfg now transport login_resp a st with
    | done evs out =>
      simp only [XUIClient.safeRequestLoop, hstep]
      exact fun hm => step_login_needs_404 cfg now transport login_resp a st (h404 a)
        (by rw [hstep]; exact hm)
    | retry evs st2 =>
      simp only [XUIClient.safeRequestLoop, hstep]
      intro hm
      rcases List.mem_append.mp hm with h1 | h2
      · exact step_login_needs_404 cfg now transport login_resp a st (h404 a)
          (by rw [hstep]; exact h1) 
      · exact ih st2 h2

/-- When the session is within its validity duration at loop entry, the
loop never calls login (a 404 then fails as a genuine not-found at once). -/
theorem loop_no_login_fresh (cfg : SessionConfig) (now : Int)
    (transport : Nat → Resp) (login_resp : Resp) :
    ∀ (attempts : List Nat) (st : Option Int),
      sessionIsStale st now cfg.sessionDuration = false →
      loginCallCount (XUIClient.safeRequestLoop cfg now transport login_resp attempts st).1
        = 0 := by
  intro attempts
  induction attempts with
  | nil =>
    intro st _
    simp [XUIClient.safeRequestLoop, loginCallCount]
  | cons a rest ih =>
    intro st hfresh
    have hstepf := step_fresh_session cfg now transport login_resp a st hfresh
    cases hstep : XUIClient.safeRequestStep cfg now transport login_resp a st with
    | done evs out =>
      simp only [XUIClient.safeRequestLoop, hstep]
      have : ReqEvent.loginCall ∉ evs := by
        have := hstepf.1; rw [hstep] at this; exact this
      simp only [loginCallCount, List.length_eq_zero, List.filter_eq_nil_iff]
      intro e he
      cases e <;> simp_all
    | retry evs st2 =>
      have hst2 : st2 = st := hstepf.2 evs st2 hstep
      simp only [XUIClient.safeRequestLoop, hstep]
      have hnotin : ReqEvent.loginCall ∉ evs := by
        have := hstepf.1; rw [hstep] at this; exact this
      have hrest := ih st2 (by rw [hst2]; exact hfresh)
      simp only [loginCallCount, List.filter_append, List.length_append] at hrest ⊢
      rw [hrest]
      have : List.filter (fun e => match e with | .loginCall => true | _ => false) evs = [] := by
        rw [List.filter_eq_nil_iff]
        intro e he
        cases e <;> simp_all
      rw [this]
      rfl

/-- Each loop iteration records exactly one HTTP attempt. -/
theorem step_http_count (cfg : SessionConfig) (now : Int) (transport : Nat → Resp)
    (login_resp : Resp) (a : Nat) (st : Option Int) :
    httpCount (XUIClient.safeRequestStep cfg now transport login_resp a st).events = 1 := by
  simp only [XUIClient.safeRequestStep]
  repeat' split
  all_goals simp [StepResult.events, httpCount]

/-- The loop issues at most one HTTP attempt per remaining attempt number:
the retry budget is shared by every kind of retry. -/
theorem loop_http_count_le (cfg : SessionConfig) (now : Int)
    (transport : Nat → Resp) (login_resp : Resp) :
    ∀ (attempts : List Nat) (st : Option Int),
      httpCount (XUIClient.safeRequestLoop cfg now transport login_resp attempts st).1
        ≤ attempts.length := by
  intro attempts
  induction attempts with
  | nil =>
    intro st
    simp [XUIClient.safeRequestLoop, httpCount]
  | cons a rest ih =>
    intro st
    have hone := step_http_count cfg now transport login_resp a st
    cases hstep : XUIClient.safeRequestStep cfg now transport login_resp a st with
    | done evs out =>
      rw [hstep] at hone
      simp only [StepResult.events] at hone
      simp only [XUIClient.safeRequestLoop, hstep, List.length_cons]
      omega
    | retry evs st2 =>
      rw [hstep] at hone
      simp only [StepResult.events] at hone
      have hrest := ih st2
      simp only [XUIClient.safeRequestLoop, hstep, List.length_cons]
      simp only [httpCount, List.filter_append, List.length_append] at hrest hone ⊢
      omega

/-! ## Claim C1: retry bound under a permanently locked database -/

/-- Claim C1: with `max_retries = 3` and a transport whose every response is
HTTP 2xx with a DB_LOCKED-classified body, `_safe_request` issues exactly 3
HTTP attempts and then raises "Too many retries": it never issues a 4th
attempt and never returns a response. -/
theorem safe_request_db_locked_exactly_three_attempts
    (cfg : SessionConfig) (now : Int) (transport : Nat → Resp) (login_resp : Resp)
    (session_start : Option Int)
    (hmr : cfg.maxRetries = 3)
    (h2xx : ∀ i, (transport i).status / 100 = 2)
    (hdb : ∀ i, check_xui_response_validity (transport i).body = Except.ok "DB_LOCKED") :
    httpCount (XUIClient.safe_request cfg now transport login_resp session_start).1 = 3
    ∧ (XUIClient.safe_request cfg now transport login_resp session_start).2
        = ReqOutcome.failure (.runtimeError .tooManyRetries) := by
  obtain ⟨mr, rd, sd⟩ := cfg
  simp only at hmr
  subst hmr
  have h0 := h2xx 0; have h1 := h2xx 1; have h2 := h2xx 2
  have d0 := hdb 0; have d1 := hdb 1; have d2 := hdb 2
  have hrange : List.range 3 = [0, 1, 2] := rfl
  have hs0 : XUIClient.safeRequestStep ⟨3, rd, sd⟩ now transport login_resp 0 session_start
      = .retry [.http 0 (transport 0).status, .validate 0 (transport 0).status, .sleep]
          session_start := by
    simp [XUIClient.safeRequestStep, h0, d0]
  have hs1 : XUIClient.safeRequestStep ⟨3, rd, sd⟩ now transport login_resp 1 session_start
      = .retry [.http 1 (transport 1).status, .validate 1 (transport 1).status, .sleep]
          session_start := by
    simp [XUIClient.safeRequestStep, h1, d1]
  have hs2 : XUIClient.safeRequestStep ⟨3, rd, sd⟩ now transport login_resp 2 session_start
      = .done [.http 2 (transport 2).status, .validate 2 (transport 2).status]
          (.failure (.runtimeError .tooManyRetries)) := by
    simp [XUIClient.safeRequestStep, h2, d2]
  simp only [XUIClient.safe_request, hrange, XUIClient.safeRequestLoop, hs0, hs1, hs2]
  constructor
  · simp [httpCount]
  · trivial

/-- Witness for C1 at a concrete locked-database transport. -/
theorem safe_request_db_locked_exactly_three_attempts_witness :
    httpCount (XUIClient.safe_request (SessionConfig.mk 3 1 3600) 0
      (fun _ => Resp.mk 200 (PyJson.obj [("success", PyJson.bool false),
        ("msg", PyJson.str "database is locked"), ("obj", PyJson.null)]))
      (Resp.mk 200 (PyJson.obj [("success", PyJson.bool true)])) none).1 = 3
    ∧ (XUIClient.safe_request (SessionConfig.mk 3 1 3600) 0
      (fun _ => Resp.mk 200 (PyJson.obj [("success", PyJson.bool false),
        ("msg", PyJson.str "database is locked"), ("obj", PyJson.null)]))
      (Resp.mk 200 (PyJson.obj [("success", PyJson.bool true)])) none).2
        = ReqOutcome.failure (.runtimeError .tooManyRetries) :=
  safe_request_db_locked_exactly_three_attempts
    (SessionConfig.mk 3 1 3600) 0
    (fun _ => Resp.mk 200 (PyJson.obj [("success", PyJson.bool false),
      ("msg", PyJson.str "database is locked"), ("obj", PyJson.null)]))
    (Resp.mk 200 (PyJson.obj [("success", PyJson.bool true)])) none
    rfl (fun _ => by simp) (fun _ => rfl)


/-- Unfolding of one loop iteration that continues. -/
theorem loop_cons_of_retry (cfg : SessionConfig) (now : Int) (transport : Nat → Resp)
    (login_resp : Resp) (a : Nat) (rest : List Nat) (st st2 : Option Int)
    (evs : List ReqEvent)
    (h : XUIClient.safeRequestStep cfg now transport login_resp a st = .retry evs st2) :
    XUIClient.safeRequestLoop cfg now transport login_resp (a :: rest) st
      = (evs ++ (XUIClient.safeRequestLoop cfg now transport login_resp rest st2).1,
         (XUIClient.safeRequestLoop cfg now transport login_resp rest st2).2) := by
  simp only [XUIClient.safeRequestLoop, h]

/-- Unfolding of one loop iteration that finishes. -/
theorem loop_cons_of_done (cfg : SessionConfig) (now : Int) (transport : Nat → Resp)
    (login_resp : Resp) (a : Nat) (rest : List Nat) (st : Option Int)
    (evs : List ReqEvent) (out : ReqOutcome)
    (h : XUIClient.safeRequestStep cfg now transport login_resp a st = .done evs out) :
    XUIClient.safeRequestLoop cfg now transport login_resp (a :: rest) st = (evs, out) := by
  simp only [XUIClient.safeRequestLoop, h]

/-- An HTTP event can only carry the iteration's own attempt number and the
transport's status for it. -/
theorem step_http_mem (cfg : SessionConfig) (now : Int) (transport : Nat → Resp)
    (login_resp : Resp) (a : Nat) (st : Option Int) (i s : Nat)
    (h : ReqEvent.http i s
      ∈ (XUIClient.safeRequestStep cfg now transport login_resp a st).events) :
    i = a ∧ s = (transport a).status := by
  simp only [XUIClient.safeRequestStep] at h
  repeat' split at h
  all_goals simp_all [StepResult.events]

/-- On a non-2xx, non-404 response the iteration finishes at once with the
wrong-status failure, recording nothing but the HTTP attempt itself. -/
theorem step_wrong_status (cfg : SessionConfig) (now : Int) (transport : Nat → Resp)
    (login_resp : Resp) (a : Nat) (st : Option Int)
    (h2 : (transport a).status / 100 ≠ 2) (h404 : (transport a).status ≠ 404) :
    XUIClient.safeRequestStep cfg now transport login_resp a st
      = .done [.http a (transport a).status]
          (.failure (.runtimeError .wrongStatusCode)) := by
  simp [XUIClient.safeRequestStep, h2, h404]

/-- Whenever the transport answers some attempt with a non-2xx status other
than 404, the run stops right there: that HTTP attempt is the last recorded
event (so no validation, sleep, re-login or further attempt follows it) and
the outcome is the wrong-status failure. -/
theorem loop_bad_status_stops (cfg : SessionConfig) (now : Int)
    (transport : Nat → Resp) (login_resp : Resp) :
    ∀ (attempts : List Nat) (st : Option Int) (i : Nat),
      (transport i).status / 100 ≠ 2 → (transport i).status ≠ 404 →
      ReqEvent.http i (transport i).status
        ∈ (XUIClient.safeRequestLoop cfg now transport login_resp attempts st).1 →
      (∃ pre, (XUIClient.safeRequestLoop cfg now transport login_resp attempts st).1
          = pre ++ [ReqEvent.http i (transport i).status])
      ∧ (XUIClient.safeRequestLoop cfg now transport login_resp attempts st).2
          = .failure (.runtimeError .wrongStatusCode) := by
  intro attempts
  induction attempts with
  | nil =>
    intro st i h2 h4 hm
    simp [XUIClient.safeRequestLoop] at hm
  | cons a rest ih =>
    intro st i h2 h4 hm
    cases hstep : XUIClient.safeRequestStep cfg now transport login_resp a st with
    | done evs out =>
      rw [loop_cons_of_done cfg now transport login_resp a rest st evs out hstep] at hm ⊢
      obtain ⟨hi, _⟩ := step_http_mem cfg now transport login_resp a st i _
        (by rw [hstep]; exact hm)
      subst hi
      have hws := step_wrong_status cfg now transport login_resp i st h2 h4
      rw [hstep] at hws
      injection hws with hevs hout
      subst hevs
      subst hout
      exact ⟨⟨[], rfl⟩, rfl⟩
    | retry evs st2 =>
      rw [loop_cons_of_retry cfg now transport login_resp a rest st st2 evs hstep] at hm ⊢
      rcases List.mem_append.mp hm with h1 | h1
      · obtain ⟨hi, _⟩ := step_http_mem cfg now transport login_resp a st i _
          (by rw [hstep]; exact h1)
        subst hi
        have hws := step_wrong_status cfg now transport login_resp i st h2 h4
        rw [hstep] at hws
        cases hws
      · obtain ⟨⟨pre, hpre⟩, hout⟩ := ih st2 i h2 h4 h1
        refine ⟨⟨evs ++ pre, ?_⟩, hout⟩
        rw [hpre, List.append_assoc]

/-! ## Claim C3: status precedence in `_safe_request` -/

/-- Claim C3: in every execution of `_safe_request`, the HTTP status is
inspected before the body is validated (the validator only ever runs on a
response whose status the loop found to be 2xx); re-authentication is never
triggered by a status other than 404; a non-2xx, non-404 first response
fails immediately, with a single HTTP attempt and no retry, sleep,
validation or re-login; and in general a non-2xx, non-404 response at any
attempt ends the run on the spot — its HTTP event is the last event of the
trace (so no validation, sleep, re-login or further attempt follows it) and
the outcome is the wrong-status failure. -/
theorem safe_request_status_precedence
    (cfg : SessionConfig) (now : Int) (transport : Nat → Resp) (login_resp : Resp)
    (session_start : Option Int) :
    (∀ i s, ReqEvent.validate i s
        ∈ (XUIClient.safe_request cfg now transport login_resp session_start).1 →
      s = (transport i).status ∧ s / 100 = 2)
    ∧ ((∀ i, (transport i).status ≠ 404) →
      ReqEvent.loginCall
        ∉ (XUIClient.safe_request cfg now transport login_resp session_start).1)
    ∧ ((transport 0).status / 100 ≠ 2 → (transport 0).status ≠ 404 →
        1 ≤ cfg.maxRetries →
      (XUIClient.safe_request cfg now transport login_resp session_start).1
          = [ReqEvent.http 0 (transport 0).status]
      ∧ (XUIClient.safe_request cfg now transport login_resp session_start).2
          = ReqOutcome.failure (.runtimeError .wrongStatusCode))
    ∧ (∀ i, (transport i).status / 100 ≠ 2 → (transport i).status ≠ 404 →
        ReqEvent.http i (transport i).status
          ∈ (XUIClient.safe_request cfg now transport login_resp session_start).1 →
      (∃ pre, (XUIClient.safe_request cfg now transport login_resp session_start).1
          = pre ++ [ReqEvent.http i (transport i).status])
      ∧ (XUIClient.safe_request cfg now transport login_resp session_start).2
          = ReqOutcome.failure (.runtimeError .wrongStatusCode)) := by
  refine ⟨?_, ?_, ?_, ?_⟩
  · intro i s h
    exact loop_validate_mem cfg now transport login_resp _ session_start i s h
  · intro h404
    exact loop_no_login_without_404 cfg now transport login_resp h404 _ session_start
  · intro h2 h404 hmr
    obtain ⟨rest, hrest⟩ : ∃ rest, List.range cfg.maxRetries = 0 :: rest := by
      obtain ⟨k, hk⟩ : ∃ k, cfg.maxRetries = k + 1 := ⟨cfg.maxRetries - 1, by omega⟩
      exact ⟨_, by rw [hk, List.range_succ_eq_map]⟩
    have hstep0 : XUIClient.safeRequestStep cfg now transport login_resp 0 session_start
        = .done [.http 0 (transport 0).status]
            (.failure (.runtimeError .wrongStatusCode)) := by
      simp [XUIClient.safeRequestStep, h2, h404]
    simp only [XUIClient.safe_request, hrest, XUIClient.safeRequestLoop, hstep0]
    exact ⟨trivial, trivial⟩
  · intro i h2 h404 hm
    exact loop_bad_status_stops cfg now transport login_resp _ session_start i h2 h404 hm

/-- Witness for C3: a transport answering HTTP 500 from the start fails at
once, and a transport answering 500 only at the second attempt (after a
DB_LOCKED retry) also ends the trace at that HTTP event, with the
wrong-status failure. -/
theorem safe_request_status_precedence_witness :
    ((XUIClient.safe_request (SessionConfig.mk 3 1 3600) 0
        (fun _ => Resp.mk 500 PyJson.null) (Resp.mk 200 PyJson.null) none).1
      = [ReqEvent.http 0 500]
    ∧ (XUIClient.safe_request (SessionConfig.mk 3 1 3600) 0
        (fun _ => Resp.mk 500 PyJson.null) (Resp.mk 200 PyJson.null) none).2
      = ReqOutcome.failure (.runtimeError .wrongStatusCode)
    ∧ ReqEvent.loginCall
      ∉ (XUIClient.safe_request (SessionConfig.mk 3 1 3600) 0
        (fun _ => Resp.mk 500 PyJson.null) (Resp.mk 200 PyJson.null) none).1)
    ∧ ((∃ pre, (XUIClient.safe_request (SessionConfig.mk 3 1 3600) 0
        (fun i => if i = 0 then Resp.mk 200 (PyJson.obj [("success", PyJson.bool false),
          ("msg", PyJson.str "database is locked"), ("obj", PyJson.null)])
          else Resp.mk 500 PyJson.null) (Resp.mk 200 PyJson.null) none).1
          = pre ++ [ReqEvent.http 1 500])
    ∧ (XUIClient.safe_request (SessionConfig.mk 3 1 3600) 0
        (fun i => if i = 0 then Resp.mk 200 (PyJson.obj [("success", PyJson.bool false),
          ("msg", PyJson.str "database is locked"), ("obj", PyJson.null)])
          else Resp.mk 500 PyJson.null) (Resp.mk 200 PyJson.null) none).2
          = ReqOutcome.failure (.runtimeError .wrongStatusCode)) := by
  have h := safe_request_status_precedence (SessionConfig.mk 3 1 3600) 0
    (fun _ => Resp.mk 500 PyJson.null) (Resp.mk 200 PyJson.null) none
  have h3 := h.2.2.1 (by simp) (by simp) (by simp)
  have g := safe_request_status_precedence (SessionConfig.mk 3 1 3600) 0
    (fun i => if i = 0 then Resp.mk 200 (PyJson.obj [("success", PyJson.bool false),
      ("msg", PyJson.str "database is locked"), ("obj", PyJson.null)])
      else Resp.mk 500 PyJson.null) (Resp.mk 200 PyJson.null) none
  have g4 := g.2.2.2 1 (by decide) (by decide) (by decide)
  exact ⟨⟨h3.1, h3.2, h.2.1 (fun i => by simp)⟩, g4.1, g4.2⟩

/-! ## Claim C2: 404 with a stale session re-logins once, consuming budget -/

/-- Claim C2, amended: when the first response is 404 and the session start
is unset or older than the validity duration, `_safe_request` performs
exactly one re-login call and then retries the original request as the
*next* loop attempt, so the re-authentication retry consumes one attempt of
the shared retry budget (the total number of HTTP attempts stays bounded by
`max_retries`); when the session is still within the validity duration, the
404 fails immediately as a genuine not-found. -/
theorem safe_request_404_relogin_consumes_attempt
    (cfg : SessionConfig) (now : Int) (transport : Nat → Resp) (login_resp : Resp)
    (session_start : Option Int)
    (hmr : 2 ≤ cfg.maxRetries)
    (hdur : 0 ≤ cfg.sessionDuration)
    (hlogin : XUIClient.login login_resp now = .ok (some now))
    (h404 : (transport 0).status = 404) :
    (sessionIsStale session_start now cfg.sessionDuration = true →
      loginCallCount (XUIClient.safe_request cfg now transport login_resp session_start).1 = 1
      ∧ (∃ tail, (XUIClient.safe_request cfg now transport login_resp session_start).1
          = ReqEvent.http 0 404 :: ReqEvent.loginCall
              :: ReqEvent.http 1 (transport 1).status :: tail)
      ∧ httpCount (XUIClient.safe_request cfg now transport login_resp session_start).1
          ≤ cfg.maxRetries)
    ∧ (sessionIsStale session_start now cfg.sessionDuration = false →
      (XUIClient.safe_request cfg now transport login_resp session_start).1
          = [ReqEvent.http 0 404]
      ∧ (XUIClient.safe_request cfg now transport login_resp session_start).2
          = ReqOutcome.failure (.runtimeError .genuineNotFound)) := by
  obtain ⟨rest2, hr⟩ : ∃ rest2, List.range cfg.maxRetries = 0 :: 1 :: rest2 := by
    obtain ⟨k, hk⟩ : ∃ k, cfg.maxRetries = k + 2 := ⟨cfg.maxRetries - 2, by omega⟩
    refine ⟨(List.range k).map (fun i => i + 1 + 1), ?_⟩
    rw [hk, List.range_succ_eq_map, List.range_succ_eq_map]
    simp [List.map_map]
  have hlen : (0 :: 1 :: rest2).length = cfg.maxRetries := by
    rw [← hr, List.length_range]
  constructor
  · intro hstale
    have hstep0 : XUIClient.safeRequestStep cfg now transport login_resp 0 session_start
        = .retry [.http 0 404, .loginCall] (some now) := by
      simp [XUIClient.safeRequestStep, h404, hstale, hlogin]
    have hfresh2 : sessionIsStale (some now) now cfg.sessionDuration = false := by
      simp only [sessionIsStale, decide_eq_false_iff_not]
      omega
    simp only [XUIClient.safe_request]
    rw [hr, loop_cons_of_retry cfg now transport login_resp 0 (1 :: rest2)
      session_start (some now) _ hstep0]
    refine ⟨?_, ?_, ?_⟩
    · have h0 := loop_no_login_fresh cfg now transport login_resp (1 :: rest2) (some now) hfresh2
      simp only [loginCallCount, List.filter_append, List.length_append] at h0 ⊢
      rw [h0]
      rfl
    · obtain ⟨tail, htail⟩ := loop_events_head cfg now transport login_resp 1 rest2 (some now)
      refine ⟨tail, ?_⟩
      rw [htail]
      rfl
    · have hle := loop_http_count_le cfg now transport login_resp (1 :: rest2) (some now)
      simp only [List.length_cons] at hle hlen
      simp only [httpCount, List.filter_append, List.length_append] at hle ⊢
      have hpre : (List.filter
          (fun e => match e with | ReqEvent.http _ _ => true | _ => false)
          [ReqEvent.http 0 404, ReqEvent.loginCall]).length = 1 := rfl
      rw [hpre]
      omega
  · intro hfresh
    have hstep0 : XUIClient.safeRequestStep cfg now transport login_resp 0 session_start
        = .done [.http 0 404] (.failure (.runtimeError .genuineNotFound)) := by
      simp [XUIClient.safeRequestStep, h404, hfresh]
    simp only [XUIClient.safe_request]
    rw [hr, loop_cons_of_done cfg now transport login_resp 0 (1 :: rest2)
      session_start _ _ hstep0]
    exact ⟨rfl, rfl⟩

/-- Witness for C2 (amended) at a concrete stale-session 404 run. -/
theorem safe_request_404_relogin_consumes_attempt_witness :
    loginCallCount (XUIClient.safe_request (SessionConfig.mk 3 1 3600) 0
      (fun i => if i = 0 then Resp.mk 404 PyJson.null
        else Resp.mk 200 (PyJson.obj [("success", PyJson.bool false),
          ("msg", PyJson.str "database is locked"), ("obj", PyJson.null)]))
      (Resp.mk 200 (PyJson.obj [("success", PyJson.bool true)])) none).1 = 1
    ∧ (∃ tail, (XUIClient.safe_request (SessionConfig.mk 3 1 3600) 0
      (fun i => if i = 0 then Resp.mk 404 PyJson.null
        else Resp.mk 200 (PyJson.obj [("success", PyJson.bool false),
          ("msg", PyJson.str "database is locked"), ("obj", PyJson.null)]))
      (Resp.mk 200 (PyJson.obj [("success", PyJson.bool true)])) none).1
        = ReqEvent.http 0 404 :: ReqEvent.loginCall
            :: ReqEvent.http 1 ((fun i => if i = 0 then Resp.mk 404 PyJson.null
              else Resp.mk 200 (PyJson.obj [("success", PyJson.bool false),
                ("msg", PyJson.str "database is locked"), ("obj", PyJson.null)]))
              1).status :: tail)
    ∧ httpCount (XUIClient.safe_request (SessionConfig.mk 3 1 3600) 0
      (fun i => if i = 0 then Resp.mk 404 PyJson.null
        else Resp.mk 200 (PyJson.obj [("success", PyJson.bool false),
          ("msg", PyJson.str "database is locked"), ("obj", PyJson.null)]))
      (Resp.mk 200 (PyJson.obj [("success", PyJson.bool true)])) none).1
        ≤ (SessionConfig.mk 3 1 3600).maxRetries :=
  (safe_request_404_relogin_consumes_attempt (SessionConfig.mk 3 1 3600) 0
    (fun i => if i = 0 then Resp.mk 404 PyJson.null
      else Resp.mk 200 (PyJson.obj [("success", PyJson.bool false),
        ("msg", PyJson.str "database is locked"), ("obj", PyJson.null)]))
    (Resp.mk 200 (PyJson.obj [("success", PyJson.bool true)])) none
    (by simp) (by simp) rfl rfl).1 rfl

/-- Counterexample to C2 as stated: with `max_retries = 3`, an unset
session, a 404 first response and 2xx DB_LOCKED responses afterwards, the
call performs its one re-login but then issues only 3 HTTP attempts in
total before failing with "Too many retries". The re-authentication retry
consumed one attempt of the shared budget; were the budget not consumed,
the run would issue 4 HTTP attempts (1 + `max_retries`). -/
theorem safe_request_404_relogin_budget_counterexample :
    loginCallCount (XUIClient.safe_request (SessionConfig.mk 3 1 3600) 0
      (fun i => if i = 0 then Resp.mk 404 PyJson.null
        else Resp.mk 200 (PyJson.obj [("success", PyJson.bool false),
          ("msg", PyJson.str "database is locked"), ("obj", PyJson.null)]))
      (Resp.mk 200 (PyJson.obj [("success", PyJson.bool true)])) none).1 = 1
    ∧ httpCount (XUIClient.safe_request (SessionConfig.mk 3 1 3600) 0
      (fun i => if i = 0 then Resp.mk 404 PyJson.null
        else Resp.mk 200 (PyJson.obj [("success", PyJson.bool false),
          ("msg", PyJson.str "database is locked"), ("obj", PyJson.null)]))
      (Resp.mk 200 (PyJson.obj [("success", PyJson.bool true)])) none).1 = 3
    ∧ (XUIClient.safe_request (SessionConfig.mk 3 1 3600) 0
      (fun i => if i = 0 then Resp.mk 404 PyJson.null
        else Resp.mk 200 (PyJson.obj [("success", PyJson.bool false),
          ("msg", PyJson.str "database is locked"), ("obj", PyJson.null)]))
      (Resp.mk 200 (PyJson.obj [("success", PyJson.bool true)])) none).2
        = ReqOutcome.failure (.runtimeError .tooManyRetries) :=
  ⟨rfl, rfl, rfl⟩

/-! ## Claim C9: login outcomes -/

/-- Claim C9: `login` against HTTP 200 with a body whose `success` field is
`true` records a non-null session start (`some now`) and returns without
error; against HTTP 200 with `success` equal to `false` it raises the
wrong-credentials `ValueError`; against any non-200 status it raises the
status `RuntimeError`. -/
theorem login_outcomes (resp : Resp) (now : Int) (entries : List (String × PyJson)) :
    (resp.status = 200 → resp.body = .obj entries →
      dictGet entries "success" = some (.bool true) →
      XUIClient.login resp now = .ok (some now))
    ∧ (resp.status = 200 → resp.body = .obj entries →
      dictGet entries "success" = some (.bool false) →
      XUIClient.login resp now = .error (.valueError .wrongCredentials))
    ∧ (resp.status ≠ 200 →
      XUIClient.login resp now = .error (.runtimeError .loginBadStatus)) := by
  refine ⟨?_, ?_, ?_⟩
  · intro hst hbody hsucc
    simp [XUIClient.login, hst, hbody, hsucc, pyTruthy]
  · intro hst hbody hsucc
    simp [XUIClient.login, hst, hbody, hsucc, pyTruthy]
  · intro hst
    simp [XUIClient.login, hst]

/-- Witness for C9 at a concrete successful login stub. -/
theorem login_outcomes_witness :
    XUIClient.login (Resp.mk 200 (PyJson.obj [("success", PyJson.bool true)])) 5
      = .ok (some 5)
    ∧ XUIClient.login (Resp.mk 200 (PyJson.obj [("success", PyJson.bool false)])) 5
      = .error (.valueError .wrongCredentials)
    ∧ XUIClient.login (Resp.mk 403 (PyJson.obj [("success", PyJson.bool true)])) 5
      = .error (.runtimeError .loginBadStatus) :=
  ⟨(login_outcomes (Resp.mk 200 (PyJson.obj [("success", PyJson.bool true)])) 5
      [("success", PyJson.bool true)]).1 rfl rfl rfl,
   (login_outcomes (Resp.mk 200 (PyJson.obj [("success", PyJson.bool false)])) 5
      [("success", PyJson.bool false)]).2.1 rfl rfl rfl,
   (login_outcomes (Resp.mk 403 (PyJson.obj [("success", PyJson.bool true)])) 5
      [("success", PyJson.bool true)]).2.2 (by simp)⟩

/-! ## Claim C4: classification of well-keyed envelopes -/

/-- Claim C4, amended: for an object whose keys are exactly `success`,
`msg`, `obj` *in that order*, the validator classifies OK when `success` is
the boolean `true` (for all `msg` and `obj` values), DB_LOCKED when
`success` is the boolean `false` and `msg` is a string whose lowercase form
contains both "database" and "locked", and ERROR when `success` is the
boolean `false` and `msg` is a string lacking one of the two words. -/
theorem check_envelope_classification (s m o : PyJson) :
    (s = .bool true →
      check_xui_response_validity (.obj [("success", s), ("msg", m), ("obj", o)])
        = .ok "OK")
    ∧ (∀ t, s = .bool false → m = .str t → msgSaysDbLocked t = true →
      check_xui_response_validity (.obj [("success", s), ("msg", m), ("obj", o)])
        = .ok "DB_LOCKED")
    ∧ (∀ t, s = .bool false → m = .str t → msgSaysDbLocked t = false →
      check_xui_response_validity (.obj [("success", s), ("msg", m), ("obj", o)])
        = .ok "ERROR") := by
  refine ⟨?_, ?_, ?_⟩
  · intro hs
    subst hs
    simp [check_xui_response_validity, pyLen, dictKeys, dictGet, pyTruthy]
  · intro t hs hm hdb
    subst hs
    subst hm
    simp only [msgSaysDbLocked, Bool.and_eq_true] at hdb
    simp [check_xui_response_validity, pyLen, dictKeys, dictGet, pyTruthy, hdb.1, hdb.2]
  · intro t hs hm hdb
    subst hs
    subst hm
    simp only [msgSaysDbLocked, Bool.and_eq_false_iff] at hdb
    rcases hdb with hdb | hdb <;>
      simp [check_xui_response_validity, pyLen, dictKeys, dictGet, pyTruthy, hdb]

/-- Witness for C4 (amended) at concrete envelopes. -/
theorem check_envelope_classification_witness :
    check_xui_response_validity (.obj [("success", .bool true),
      ("msg", .str "whatever"), ("obj", .int 7)]) = .ok "OK"
    ∧ check_xui_response_validity (.obj [("success", .bool false),
      ("msg", .str "Database is LOCKED"), ("obj", .null)]) = .ok "DB_LOCKED"
    ∧ check_xui_response_validity (.obj [("success", .bool false),
      ("msg", .str "nope"), ("obj", .null)]) = .ok "ERROR" :=
  ⟨(check_envelope_classification (.bool true) (.str "whatever") (.int 7)).1 rfl,
   (check_envelope_classification (.bool false) (.str "Database is LOCKED") .null).2.1
     "Database is LOCKED" rfl rfl rfl,
   (check_envelope_classification (.bool false) (.str "nope") .null).2.2
     "nope" rfl rfl rfl⟩

/-- Counterexample to C4 as stated. Three objects with exactly the three
keys `success`, `msg`, `obj`: one with the keys in a different insertion
order is rejected with the format error instead of classified OK; one with
a truthy non-boolean `success` (the integer 1, which is not `true`) is
classified OK instead of ERROR; one with `success` false and a non-string
`msg` raises an attribute error instead of returning ERROR. -/
theorem check_envelope_counterexample :
    hasEnvelopeKeys (.obj [("msg", .str ""), ("success", .bool true), ("obj", .null)]) = true
    ∧ check_xui_response_validity (.obj [("msg", .str ""), ("success", .bool true), ("obj", .null)])
        = .error (.runtimeError .validatorFormat)
    ∧ hasEnvelopeKeys (.obj [("success", .int 1), ("msg", .str ""), ("obj", .null)]) = true
    ∧ check_xui_response_validity (.obj [("success", .int 1), ("msg", .str ""), ("obj", .null)])
        = .ok "OK"
    ∧ hasEnvelopeKeys (.obj [("success", .bool false), ("msg", .int 5), ("obj", .null)]) = true
    ∧ check_xui_response_validity (.obj [("success", .bool false), ("msg", .int 5), ("obj", .null)])
        = .error .attributeError :=
  ⟨rfl, rfl, rfl, rfl, rfl, rfl⟩

/-! ## Claim C5: rejection of every other shape -/

/-- Claim C5, amended: for every decoded JSON value that is not an object
with exactly the three keys `success`, `msg`, `obj`, the validator raises
an error — it never returns any of the classifications OK, DB_LOCKED or
ERROR. (The raised error is the format `RuntimeError` except for sized
non-dict values of length 3, where the `.keys()` attribute lookup fails
first, and unsized values, where `len()` raises a `TypeError`.) -/
theorem check_rejects_other_shapes (j : PyJson)
    (h : hasEnvelopeKeys j = false) :
    ∃ e, check_xui_response_validity j = .error e := by
  match j with
  | .null => exact ⟨_, rfl⟩
  | .bool b => exact ⟨_, rfl⟩
  | .int n => exact ⟨_, rfl⟩
  | .str s =>
    by_cases hl : s.length = 3 <;>
      simp [check_xui_response_validity, pyLen, hl]
  | .arr items =>
    by_cases hl : items.length = 3 <;>
      simp [check_xui_response_validity, pyLen, hl]
  | .obj entries =>
    have hne : dictKeys entries ≠ ["success", "msg", "obj"] := by
      intro heq
      have htrue : hasEnvelopeKeys (.obj entries) = true := by
        simp only [hasEnvelopeKeys, heq]
        decide
      rw [htrue] at h
      exact absurd h (by decide)
    by_cases hl : entries.length = 3 <;>
      simp [check_xui_response_validity, pyLen, hl, hne]

/-- Witness for C5 (amended) at a concrete unsized value. -/
theorem check_rejects_other_shapes_witness :
    ∃ e, check_xui_response_validity (.int 5) = .error e :=
  check_rejects_other_shapes (.int 5) rfl

/-- Counterexample to C5 as stated: two non-envelope shapes that fail, but
not with the validator's own format `RuntimeError`: a 3-element array dies
on the `.keys()` attribute lookup, and an integer dies on `len()`. -/
theorem check_rejects_other_shapes_counterexample :
    hasEnvelopeKeys (.arr [.null, .null, .null]) = false
    ∧ check_xui_response_validity (.arr [.null, .null, .null]) = .error .attributeError
    ∧ hasEnvelopeKeys (.int 5) = false
    ∧ check_xui_response_validity (.int 5) = .error .typeError :=
  ⟨rfl, rfl, rfl, rfl⟩

/-! ## Claim C7: client-add input normalization -/

/-- Claim C7, evaluated at its failing input class: a typed single client is
always normalized into the bulk collection shape — a collection whose
client list is exactly that one client under the given parent inbound id —
and sent; in particular, with no parent inbound id (`none`), `add_client`
does not raise but sends the payload with a null parent id. The
missing-parent-id `ValueError` asserted by the claim (and by the method's
own docstring) sits only on the raw-dict input path, which a typed
`SingleInboundClient` value never takes. -/
theorem add_client_single_normalizes (c : SingleInboundClient) (inbound_id : Option Int) :
    Clients.add_client (.single c) inbound_id
      = .ok (InboundClients.mk inbound_id (InboundClientsSettings.mk [c])) := rfl

/-! ## Claim C8: delete across all production inbounds -/

/-- Claim C8: deleting a client from all production inbounds performs
exactly one delete call per memoized inbound, sequentially in list order
(the i-th response is the response to the delete URL derived from the i-th
inbound), returns all outcomes, and each outcome depends only on its own
inbound — no earlier response is altered by a later one. -/
theorem delete_all_inbounds_one_call_per_inbound (telegram_id : Int)
    (production_inbounds : List Inbound) (post : String → Resp) :
    XUIClient.delete_client_by_tgid_all_inbounds telegram_id production_inbounds post
      = production_inbounds.map (fun inbound =>
          Clients.delete_client_by_email
            (generate_email_from_tgid_inbid telegram_id inbound.id) inbound.id post)
    ∧ (XUIClient.delete_client_by_tgid_all_inbounds telegram_id production_inbounds post).length
      = production_inbounds.length := by
  constructor
  · induction production_inbounds with
    | nil => rfl
    | cons inbound rest ih =>
      simp only [XUIClient.delete_client_by_tgid_all_inbounds, List.map_cons]
      rw [ih]
  · induction production_inbounds with
    | nil => rfl
    | cons inbound rest ih =>
      simp only [XUIClient.delete_client_by_tgid_all_inbounds, List.length_cons]
      rw [ih]

/-! ## Claim C10: deterministic identifier derivation -/

/-- Claim C10: identifier derivation is deterministic. In its default fixed
mode the UUID helper's output is independent of the ambient wall clock (any
two clock readings give the same string), and the subscription-id and email
helpers read nothing but their arguments, so equal arguments give equal
strings. -/
theorem identifier_derivation_deterministic (telegram_id inbound_id : Int)
    (now1 now2 : PyDateTime) :
    get_telegram_uuid telegram_id true now1 = get_telegram_uuid telegram_id true now2
    ∧ sub_from_tgid telegram_id
        = String.mk (base64EncodeBytes (utf8Bytes (toString telegram_id)))
    ∧ generate_email_from_tgid_inbid telegram_id inbound_id
        = "TG" ++ toString telegram_id ++ "IB" ++ toString inbound_id := by
  refine ⟨?_, rfl, rfl⟩
  simp [get_telegram_uuid]

/-! ## Codec lemmas: integer numerals -/

/-- Facts about the decimal digit character of a value below ten. -/
theorem decimal_digit_facts (k : Nat) (h : k < 10) :
    (Char.ofNat (48 + k)).toNat = 48 + k
    ∧ isDigitChar (Char.ofNat (48 + k)) = true := by
  interval_cases k <;> exact ⟨rfl, rfl⟩

/-- Unfolding of `natDecimalChars` below ten. -/
theorem natDecimalChars_lt (n : Nat) (h : n < 10) :
    natDecimalChars n = [Char.ofNat (48 + n)] := by
  rw [natDecimalChars.eq_def]
  simp [h]

/-- Unfolding of `natDecimalChars` from ten on. -/
theorem natDecimalChars_ge (n : Nat) (h : ¬ n < 10) :
    natDecimalChars n = natDecimalChars (n / 10) ++ [Char.ofNat (48 + n % 10)] := by
  rw [natDecimalChars.eq_def]
  simp [h]

/-- A decimal rendering consists of digit characters. -/
theorem natDecimalChars_digits (n : Nat) :
    ∀ c ∈ natDecimalChars n, isDigitChar c = true := by
  induction n using Nat.strong_induction_on with
  | _ n ih =>
    by_cases h : n < 10
    · rw [natDecimalChars_lt n h]
      intro c hc
      rw [List.mem_singleton] at hc
      subst hc
      exact (decimal_digit_facts n h).2
    · rw [natDecimalChars_ge n h]
      intro c hc
      rcases List.mem_append.mp hc with hc | hc
      · have hlt : n / 10 < n := Nat.div_lt_self (by omega) (by omega)
        exact ih (n / 10) hlt c hc
      · rw [List.mem_singleton] at hc
        subst hc
        exact (decimal_digit_facts (n % 10) (Nat.mod_lt _ (by omega))).2

/-- A decimal rendering is never empty. -/
theorem natDecimalChars_ne_nil (n : Nat) : natDecimalChars n ≠ [] := by
  by_cases h : n < 10
  · rw [natDecimalChars_lt n h]
    simp
  · rw [natDecimalChars_ge n h]
    simp

/-- A nonzero value's decimal rendering never starts with the zero digit. -/
theorem natDecimalChars_head_ne_zero :
    ∀ n, n ≠ 0 → ∀ d ds, natDecimalChars n = d :: ds → d ≠ '0' := by
  intro n
  induction n using Nat.strong_induction_on with
  | _ n ih =>
    intro hn d ds hcons
    by_cases h : n < 10
    · rw [natDecimalChars_lt n h] at hcons
      intro hd
      subst hd
      have := congrArg (fun l => List.head? l) hcons
      simp at this
      have h48 : (Char.ofNat (48 + n)).toNat = 48 + n := (decimal_digit_facts n h).1
      rw [this] at h48
      simp at h48
      omega
    · rw [natDecimalChars_ge n h] at hcons
      rcases hhd : natDecimalChars (n / 10) with _ | ⟨d2, ds2⟩
      · exact absurd hhd (natDecimalChars_ne_nil _)
      · rw [hhd, List.cons_append] at hcons
        have hd2 : d = d2 := by
          have hh := congrArg (fun l => List.head? l) hcons
          simp at hh
          exact hh.symm
        rw [hd2]
        have hlt : n / 10 < n := Nat.div_lt_self (by omega) (by omega)
        exact ih (n / 10) hlt (by omega) d2 ds2 hhd

/-- Reparsing a decimal rendering recovers the value. -/
theorem digitsToNat_natDecimalChars (n : Nat) :
    digitsToNat (natDecimalChars n) = n := by
  induction n using Nat.strong_induction_on with
  | _ n ih =>
    by_cases h : n < 10
    · rw [natDecimalChars_lt n h]
      simp only [digitsToNat, List.foldl_cons, List.foldl_nil]
      rw [(decimal_digit_facts n h).1]
      omega
    · rw [natDecimalChars_ge n h]
      simp only [digitsToNat, List.foldl_append, List.foldl_cons, List.foldl_nil]
      have hlt : n / 10 < n := Nat.div_lt_self (by omega) (by omega)
      have hdiv := ih (n / 10) hlt
      simp only [digitsToNat] at hdiv
      rw [hdiv, (decimal_digit_facts (n % 10) (Nat.mod_lt _ (by omega))).1]
      omega

/-- The digit run stops immediately at a numeral delimiter. -/
theorem digitRun_stop (cs : List Char) (h : numberStop cs = true) :
    digitRun cs = ([], cs) := by
  cases cs with
  | nil => rfl
  | cons c t =>
    have hc : isDigitChar c = false := by
      revert h
      rw [numberStop]
      cases isDigitChar c
      · intro _
        rfl
      · intro hx
        simp at hx
    rw [digitRun, hc]
    rfl

/-- The digit run takes exactly a leading block of digits when the rest
starts with a delimiter. -/
theorem digitRun_digits_prefix (ds : List Char) (hds : ∀ c ∈ ds, isDigitChar c = true)
    (rest : List Char) (hrest : digitRun rest = ([], rest)) :
    digitRun (ds ++ rest) = (ds, rest) := by
  induction ds with
  | nil =>
    rw [List.nil_append]
    exact hrest
  | cons c t ih =>
    have htail := ih fun x hx => hds x (List.mem_cons_of_mem c hx)
    rw [List.cons_append]
    simp only [digitRun, hds c (List.mem_cons_self c t), if_true, htail]

/-- Reading an unsigned numeral back from its rendering. -/
theorem parseNatToken_of_render (n : Nat) (rest : List Char)
    (hstop : numberStop rest = true) :
    parseNatToken (natDecimalChars n ++ rest) = some (n, rest) := by
  have hrun : digitRun (natDecimalChars n ++ rest) = (natDecimalChars n, rest) :=
    digitRun_digits_prefix (natDecimalChars n) (natDecimalChars_digits n) rest
      (digitRun_stop rest hstop)
  rcases hcons : natDecimalChars n with _ | ⟨d, ds⟩
  · exact absurd hcons (natDecimalChars_ne_nil n)
  · rw [hcons] at hrun
    have hlz : (d = '0' && !ds.isEmpty) = false := by
      rcases hds : ds with _ | ⟨x, xs⟩
      · simp
      · have hn0 : n ≠ 0 := by
          intro h0
          subst h0
          rw [natDecimalChars_lt 0 (by omega)] at hcons
          rw [hds] at hcons
          simp at hcons
        have := natDecimalChars_head_ne_zero n hn0 d ds hcons
        simp [this]
    have hval : digitsToNat (d :: ds) = n := by
      rw [← hcons]
      exact digitsToNat_natDecimalChars n
    match rest, hstop with
    | [], _ =>
      simp only [parseNatToken, hrun, hlz, Bool.false_eq_true, if_false, hval]
    | c :: t, hstop =>
      have hcc : (c = '.' || c = 'e' || c = 'E') = false := by
        simp only [numberStop, Bool.not_eq_true', Bool.or_eq_false_iff] at hstop
        simp [hstop.1.1.2, hstop.1.2, hstop.2]
      simp only [parseNatToken, hrun, hlz, Bool.false_eq_true, if_false, hcc, hval]

/-- Reading a signed numeral back from its rendering. -/
theorem parseIntToken_of_render (i : Int) (rest : List Char)
    (hstop : numberStop rest = true) :
    parseIntToken (intChars i ++ rest) = some (i, rest) := by
  by_cases hi : i < 0
  · simp only [intChars, if_pos hi, List.cons_append]
    simp only [parseIntToken, parseNatToken_of_render i.natAbs rest hstop]
    have : -((i.natAbs : Nat) : Int) = i := by omega
    rw [this]
  · rcases hcons : natDecimalChars i.natAbs with _ | ⟨d, ds⟩
    · exact absurd hcons (natDecimalChars_ne_nil _)
    · have hd : isDigitChar d = true :=
        natDecimalChars_digits _ d (by rw [hcons]; exact List.mem_cons_self _ _)
      have hdm : d ≠ '-' := by
        intro he
        subst he
        simp [isDigitChar] at hd
      have hnat := parseNatToken_of_render i.natAbs rest hstop
      rw [hcons] at hnat
      simp only [intChars, if_neg hi, hcons, List.cons_append]
      simp only [parseIntToken]
      split
      · next heq =>
        exact absurd (List.head_eq_of_cons_eq heq) hdm
      · rw [List.cons_append] at hnat
        rw [hnat]
        have hcast : ((i.natAbs : Nat) : Int) = i := by omega
        simp [hcast]

/-! ## Codec lemmas: string escapes -/

/-- A backslash is not the quote character. -/
theorem backslash_ne_quote : (('\\' : Char) = Char.ofNat 34) = False := by decide

/-- Reading a hexadecimal digit back from its rendering. -/
theorem hexDigitVal_toHexChar (k : Nat) (hk : k < 16) :
    hexDigitVal (toHexChar k) = some k := by
  interval_cases k <;> rfl

/-- String-body parsing at a closing quote. -/
theorem parseStringBody_quote (rest : List Char) :
    parseStringBody (Char.ofNat 34 :: rest) = some ([], rest) := by
  rw [parseStringBody.eq_def]
  simp

/-- String-body parsing across a two-character escape. -/
theorem parseStringBody_short (e ch : Char) (rest : List Char)
    (he : e ≠ 'u') (hs : shortEscapeChar e = some ch) :
    parseStringBody ('\\' :: e :: rest)
      = match parseStringBody rest with
        | some p => some (ch :: p.1, p.2)
        | none => none := by
  rw [parseStringBody.eq_def]
  simp [backslash_ne_quote, he, hs]

/-- String-body parsing across a `\u` escape. -/
theorem parseStringBody_hex (a b c d : Char) (n : Nat) (rest : List Char)
    (hq : hexQuad a b c d = some n) :
    parseStringBody ('\\' :: 'u' :: a :: b :: c :: d :: rest)
      = match parseStringBody rest with
        | some p => some (Char.ofNat n :: p.1, p.2)
        | none => none := by
  rw [parseStringBody.eq_def]
  simp [backslash_ne_quote, hq]

/-- String-body parsing across an unescaped character. -/
theorem parseStringBody_plain (c : Char) (rest : List Char)
    (h1 : c ≠ Char.ofNat 34) (h2 : c ≠ '\\') (h3 : ¬ c.toNat < 32) :
    parseStringBody (c :: rest)
      = match parseStringBody rest with
        | some p => some (c :: p.1, p.2)
        | none => none := by
  rw [parseStringBody.eq_def]
  simp [h1, h2, h3]

/-- Parsing one escaped character undoes `py_escape_char`. -/
theorem parseStringBody_escape (c : Char) (rest : List Char) :
    parseStringBody (py_escape_char c ++ rest)
      = match parseStringBody rest with
        | some p => some (c :: p.1, p.2)
        | none => none := by
  by_cases h1 : c = Char.ofNat 34
  · subst h1
    exact parseStringBody_short _ _ rest (by decide) rfl
  · by_cases h2 : c = '\\'
    · subst h2
      simp only [py_escape_char, if_neg h1, if_pos rfl]
      exact parseStringBody_short _ _ rest (by decide) rfl
    · by_cases h3 : c = '\n'
      · subst h3
        simp only [py_escape_char, if_neg h1, if_neg h2, if_pos rfl]
        exact parseStringBody_short _ _ rest (by decide) rfl
      · by_cases h4 : c = '\r'
        · subst h4
          simp only [py_escape_char, if_neg h1, if_neg h2, if_neg h3, if_pos rfl]
          exact parseStringBody_short _ _ rest (by decide) rfl
        · by_cases h5 : c = '\t'
          · subst h5
            simp only [py_escape_char, if_neg h1, if_neg h2, if_neg h3, if_neg h4, if_pos rfl]
            exact parseStringBody_short _ _ rest (by decide) rfl
          · by_cases h6 : c = Char.ofNat 8
            · subst h6
              simp only [py_escape_char, if_neg h1, if_neg h2, if_neg h3, if_neg h4,
                if_neg h5, if_pos rfl]
              exact parseStringBody_short _ _ rest (by decide) rfl
            · by_cases h7 : c = Char.ofNat 12
              · subst h7
                simp only [py_escape_char, if_neg h1, if_neg h2, if_neg h3, if_neg h4,
                  if_neg h5, if_neg h6, if_pos rfl]
                exact parseStringBody_short _ _ rest (by decide) rfl
              · by_cases h8 : c.toNat < 32
                · simp only [py_escape_char, if_neg h1, if_neg h2, if_neg h3, if_neg h4,
                    if_neg h5, if_neg h6, if_neg h7, if_pos h8]
                  have hq : hexQuad '0' '0' (toHexChar (c.toNat / 16)) (toHexChar (c.toNat % 16))
                      = some c.toNat := by
                    simp only [hexQuad, hexDigitVal_toHexChar (c.toNat / 16) (by omega),
                      hexDigitVal_toHexChar (c.toNat % 16) (by omega),
                      show hexDigitVal '0' = some 0 from rfl]
                    congr 1
                    omega
                  rw [show (['\\', 'u', '0', '0', toHexChar (c.toNat / 16),
                      toHexChar (c.toNat % 16)] : List Char) ++ rest
                    = '\\' :: 'u' :: '0' :: '0' :: toHexChar (c.toNat / 16)
                        :: toHexChar (c.toNat % 16) :: rest from rfl]
                  rw [parseStringBody_hex _ _ _ _ _ rest hq, Char.ofNat_toNat]
                · simp only [py_escape_char, if_neg h1, if_neg h2, if_neg h3, if_neg h4,
                    if_neg h5, if_neg h6, if_neg h7, if_neg h8]
                  exact parseStringBody_plain c rest h1 h2 h8

/-- Parsing a whole escaped character list stops at the closing quote. -/
theorem parseStringBody_escaped (cs : List Char) :
    ∀ rest, parseStringBody (cs.flatMap py_escape_char ++ (Char.ofNat 34 :: rest))
      = some (cs, rest) := by
  induction cs with
  | nil =>
    intro rest
    simpa using parseStringBody_quote rest
  | cons c t ih =>
    intro rest
    rw [List.flatMap_cons, List.append_assoc, parseStringBody_escape, ih rest]

/-! ## Codec lemmas: heads of rendered output and whitespace -/

/-- A decimal digit character is none of the parser's structural characters. -/
theorem digit_char_props (c : Char) (h : isDigitChar c = true) :
    isJsonWs c = false ∧ c ≠ ']' ∧ c ≠ 'n' ∧ c ≠ 't' ∧ c ≠ 'f'
    ∧ c ≠ Char.ofNat 34 ∧ c ≠ '[' ∧ c ≠ lbrace ∧ c ≠ '-' := by
  simp only [isDigitChar, Bool.and_eq_true, decide_eq_true_eq] at h
  refine ⟨?_, ?_, ?_, ?_, ?_, ?_, ?_, ?_, ?_⟩
  · simp only [isJsonWs, Bool.or_eq_false_iff, decide_eq_false_iff_not]
    refine ⟨⟨⟨?_, ?_⟩, ?_⟩, ?_⟩ <;> (intro he; subst he; exact absurd h (by decide))
  all_goals (intro he; subst he; exact absurd h (by decide))

/-- Every rendered value starts with a character that is neither JSON
whitespace nor a closing bracket. -/
theorem renderValue_head (v : PyJson) :
    ∃ c t, renderValue v = c :: t ∧ isJsonWs c = false ∧ c ≠ ']' := by
  cases v with
  | null => exact ⟨'n', ['u', 'l', 'l'], by simp [renderValue], by decide, by decide⟩
  | bool b =>
    cases b with
    | false => exact ⟨'f', ['a', 'l', 's', 'e'], by simp [renderValue], by decide, by decide⟩
    | true => exact ⟨'t', ['r', 'u', 'e'], by simp [renderValue], by decide, by decide⟩
  | int n =>
    by_cases hn : n < 0
    · exact ⟨'-', natDecimalChars n.natAbs,
        by simp [renderValue, intChars, hn], by decide, by decide⟩
    · rcases hcons : natDecimalChars n.natAbs with _ | ⟨d, ds⟩
      · exact absurd hcons (natDecimalChars_ne_nil _)
      · have hd : isDigitChar d = true :=
          natDecimalChars_digits _ d (by rw [hcons]; exact List.mem_cons_self _ _)
        have hp := digit_char_props d hd
        exact ⟨d, ds, by simp [renderValue, intChars, hn, hcons], hp.1, hp.2.1⟩
  | str s =>
    exact ⟨Char.ofNat 34, s.toList.flatMap py_escape_char ++ [Char.ofNat 34],
      by simp [renderValue, renderString], by decide, by decide⟩
  | arr items =>
    exact ⟨'[', renderItems items ++ [']'], by simp [renderValue], by decide, by decide⟩
  | obj entries =>
    exact ⟨lbrace, renderEntries entries ++ [rbrace], by simp [renderValue], by decide, by decide⟩

/-- Skipping whitespace passes an all-whitespace prefix. -/
theorem skipWsChars_all (pre : List Char) (h : ∀ c ∈ pre, isJsonWs c = true) :
    ∀ x, skipWsChars (pre ++ x) = skipWsChars x := by
  induction pre with
  | nil => intro x; rfl
  | cons c t ih =>
    intro x
    have hc : isJsonWs c = true := h c (by simp)
    simp only [List.cons_append, skipWsChars, hc, if_true]
    exact ih (fun d hd => h d (by simp [hd])) x

/-- Skipping whitespace stops at a non-whitespace head. -/
theorem skipWsChars_stop (c : Char) (rest : List Char) (h : isJsonWs c = false) :
    skipWsChars (c :: rest) = c :: rest := by
  simp [skipWsChars, h]

/-- Skipping whitespace is the identity on rendered output. -/
theorem skipWsChars_render (v : PyJson) (x : List Char) :
    skipWsChars (renderValue v ++ x) = renderValue v ++ x := by
  obtain ⟨c, t, hcons, hws, _⟩ := renderValue_head v
  rw [hcons, List.cons_append, skipWsChars_stop c _ hws]

/-- The delimiter condition holds whenever the head is no numeral part. -/
theorem numberStop_cons (c : Char) (r : List Char)
    (h : (isDigitChar c || c = '.' || c = 'e' || c = 'E') = false) :
    numberStop (c :: r) = true := by
  simp [numberStop, h]

/-- A rendered value is nonempty. -/
theorem renderValue_ne_nil (v : PyJson) : renderValue v ≠ [] := by
  obtain ⟨c, t, hcons, _, _⟩ := renderValue_head v
  rw [hcons]
  simp

/-! ## Codec lemmas: `parseValue` dispatch -/

/-- An all-whitespace prefix before the value is skipped. -/
theorem parseValue_skip_pre (f : Nat) (pre cs : List Char)
    (hws : ∀ c ∈ pre, isJsonWs c = true) :
    parseValue (f + 1) (pre ++ cs) = parseValue (f + 1) cs := by
  simp only [parseValue]
  rw [skipWsChars_all pre hws]

/-- The value parser on a quote enters the string literal parser. -/
theorem parseValue_quote_dispatch (f : Nat) (body : List Char) :
    parseValue (f + 1) (Char.ofNat 34 :: body)
      = match parseStringBody body with
        | some p => some (.str (String.mk p.1), p.2)
        | none => none := rfl

/-- The value parser on a minus sign enters the numeral parser. -/
theorem parseValue_minus_dispatch (f : Nat) (rest : List Char) :
    parseValue (f + 1) ('-' :: rest)
      = match parseIntToken ('-' :: rest) with
        | some p => some (.int p.1, p.2)
        | none => none := rfl

/-- The value parser on a digit enters the numeral parser. -/
theorem parseValue_digit_dispatch (f : Nat) (c : Char) (rest : List Char)
    (h1 : isDigitChar c = true) :
    parseValue (f + 1) (c :: rest)
      = match parseIntToken (c :: rest) with
        | some p => some (.int p.1, p.2)
        | none => none := by
  have hp := digit_char_props c h1
  simp only [parseValue]
  rw [skipWsChars_stop c rest hp.1]
  simp [hp.2.2.1, hp.2.2.2.1, hp.2.2.2.2.1, hp.2.2.2.2.2.1, hp.2.2.2.2.2.2.1,
    hp.2.2.2.2.2.2.2.1, h1]

/-- The value parser on an opening bracket enters the element parser. -/
theorem parseValue_bracket_dispatch (f : Nat) (rest : List Char) :
    parseValue (f + 1) ('[' :: rest)
      = match skipWsChars rest with
        | [] => none
        | c2 :: r2 =>
          if c2 = ']' then some (.arr [], r2)
          else
            match parseItems f (c2 :: r2) with
            | some p => some (.arr p.1, p.2)
            | none => none := rfl

/-- The value parser on an opening brace enters the member parser. -/
theorem parseValue_brace_dispatch (f : Nat) (rest : List Char) :
    parseValue (f + 1) (lbrace :: rest)
      = match skipWsChars rest with
        | [] => none
        | c2 :: r2 =>
          if c2 = rbrace then some (.obj [], r2)
          else
            match parseEntries f (c2 :: r2) with
            | some p => some (.obj p.1, p.2)
            | none => none := rfl

/-- A numeral rendering read back through the value parser. -/
theorem parseValue_int (f : Nat) (i : Int) (rest : List Char)
    (hstop : numberStop rest = true) :
    parseValue (f + 1) (intChars i ++ rest) = some (.int i, rest) := by
  have hp := parseIntToken_of_render i rest hstop
  by_cases hi : i < 0
  · have harg : intChars i ++ rest = '-' :: (natDecimalChars i.natAbs ++ rest) := by
      simp [intChars, hi]
    rw [harg] at hp ⊢
    rw [parseValue_minus_dispatch, hp]
  · rcases hcons : natDecimalChars i.natAbs with _ | ⟨d, ds⟩
    · exact absurd hcons (natDecimalChars_ne_nil _)
    · have hd : isDigitChar d = true :=
        natDecimalChars_digits _ d (by rw [hcons]; exact List.mem_cons_self _ _)
      have harg : intChars i ++ rest = d :: (ds ++ rest) := by
        simp [intChars, hi, hcons]
      rw [harg] at hp ⊢
      rw [parseValue_digit_dispatch f d _ hd, hp]

/-- Separators between rendered members: the continuation after the first
member is a comma, a space and the rendering of the remaining members. -/
theorem renderEntriesNext_cons (e : String × PyJson) (es : List (String × PyJson)) :
    renderEntriesNext (e :: es) = ',' :: ' ' :: renderEntries (e :: es) := by
  rcases e with ⟨k, v⟩
  simp [renderEntriesNext, renderEntries]

/-- The element analogue of `renderEntriesNext_cons`. -/
theorem renderItemsNext_cons (v : PyJson) (vs : List PyJson) :
    renderItemsNext (v :: vs) = ',' :: ' ' :: renderItems (v :: vs) := by
  simp [renderItemsNext, renderItems]

/-- A string value round-trips through the quote dispatch. -/
theorem parseValue_str (f : Nat) (s : String) (rest : List Char) :
    parseValue (f + 1) (renderString s ++ rest) = some (.str s, rest) := by
  have harg : renderString s ++ rest
      = Char.ofNat 34 :: (s.toList.flatMap py_escape_char ++ (Char.ofNat 34 :: rest)) := by
    simp [renderString]
  rw [harg, parseValue_quote_dispatch, parseStringBody_escaped s.toList rest]
  rcases s with ⟨data⟩
  rfl

/-- Rebuilding a string from its character list is the identity. -/
theorem string_mk_toList (s : String) : String.mk s.toList = s := rfl

/-- The first character of a rendered nonempty member list is a quote. -/
theorem renderEntries_head (k : String) (v : PyJson) (es : List (String × PyJson)) :
    renderEntries ((k, v) :: es)
      = Char.ofNat 34 :: ((k.toList.flatMap py_escape_char ++ [Char.ofNat 34])
          ++ (':' :: ' ' :: (renderValue v ++ renderEntriesNext es))) := by
  simp [renderEntries, renderString]

mutual
/-- Parsing a rendered value (after an all-whitespace prefix, before a
remainder that cannot extend a numeral) recovers exactly that value. -/
theorem rt_value : ∀ (v : PyJson) (fuel : Nat) (pre rest : List Char),
    (∀ c ∈ pre, isJsonWs c = true) →
    (renderValue v).length < fuel →
    numberStop rest = true →
    parseValue fuel (pre ++ (renderValue v ++ rest)) = some (v, rest)
  | _, 0, _, _, _, hf, _ => absurd hf (Nat.not_lt_zero _)
  | .null, f + 1, pre, rest, hws, _, _ => by
    rw [parseValue_skip_pre f _ _ hws]
    rw [show renderValue PyJson.null = ['n', 'u', 'l', 'l'] from by simp [renderValue]]
    rfl
  | .bool true, f + 1, pre, rest, hws, _, _ => by
    rw [parseValue_skip_pre f _ _ hws]
    rw [show renderValue (PyJson.bool true) = ['t', 'r', 'u', 'e'] from by simp [renderValue]]
    rfl
  | .bool false, f + 1, pre, rest, hws, _, _ => by
    rw [parseValue_skip_pre f _ _ hws]
    rw [show renderValue (PyJson.bool false) = ['f', 'a', 'l', 's', 'e'] from by
      simp [renderValue]]
    rfl
  | .int i, f + 1, pre, rest, hws, _, hstop => by
    rw [parseValue_skip_pre f _ _ hws]
    rw [show renderValue (PyJson.int i) = intChars i from by simp [renderValue]]
    exact parseValue_int f i rest hstop
  | .str s, f + 1, pre, rest, hws, _, _ => by
    rw [parseValue_skip_pre f _ _ hws]
    rw [show renderValue (PyJson.str s) = renderString s from by simp [renderValue]]
    exact parseValue_str f s rest
  | .arr [], f + 1, pre, rest, hws, _, _ => by
    rw [parseValue_skip_pre f _ _ hws]
    have harg : renderValue (PyJson.arr []) ++ rest = '[' :: (']' :: rest) := by
      simp [renderValue, renderItems]
    rw [harg, parseValue_bracket_dispatch]
    simp [skipWsChars_stop ']' rest (by decide)]
  | .arr (v :: vs), f + 1, pre, rest, hws, hf, _ => by
    rw [parseValue_skip_pre f _ _ hws]
    have harg : renderValue (PyJson.arr (v :: vs)) ++ rest
        = '[' :: (renderItems (v :: vs) ++ (']' :: rest)) := by
      simp [renderValue]
    rw [harg, parseValue_bracket_dispatch]
    obtain ⟨c2, t2, hc2, hws2, hne2⟩ := renderValue_head v
    have hsplit : renderItems (v :: vs) ++ (']' :: rest)
        = c2 :: (t2 ++ (renderItemsNext vs ++ (']' :: rest))) := by
      simp [renderItems, hc2]
    rw [hsplit, skipWsChars_stop c2 _ hws2]
    simp only [if_neg hne2]
    rw [← hsplit]
    have hfi : (renderItems (v :: vs)).length + 1 < f := by
      simp only [renderValue, List.length_cons, List.length_append] at hf
      omega
    have hi := rt_items v vs f [] rest (by simp) hfi
    simp only [List.nil_append] at hi
    rw [hi]
  | .obj [], f + 1, pre, rest, hws, _, _ => by
    rw [parseValue_skip_pre f _ _ hws]
    have harg : renderValue (PyJson.obj []) ++ rest = lbrace :: (rbrace :: rest) := by
      simp [renderValue, renderEntries]
    rw [harg, parseValue_brace_dispatch]
    simp [skipWsChars_stop rbrace rest (by decide)]
  | .obj ((k, v) :: es), f + 1, pre, rest, hws, hf, _ => by
    rw [parseValue_skip_pre f _ _ hws]
    have harg : renderValue (PyJson.obj ((k, v) :: es)) ++ rest
        = lbrace :: (renderEntries ((k, v) :: es) ++ (rbrace :: rest)) := by
      simp [renderValue]
    rw [harg, parseValue_brace_dispatch]
    have hsplit : renderEntries ((k, v) :: es) ++ (rbrace :: rest)
        = Char.ofNat 34 :: (((k.toList.flatMap py_escape_char ++ [Char.ofNat 34])
            ++ (':' :: ' ' :: (renderValue v ++ renderEntriesNext es))) ++ (rbrace :: rest)) := by
      rw [renderEntries_head]
      simp
    rw [hsplit, skipWsChars_stop _ _ (by decide)]
    simp only [if_neg (show ¬ Char.ofNat 34 = rbrace from by decide)]
    rw [← hsplit]
    have hfe : (renderEntries ((k, v) :: es)).length + 1 < f := by
      simp only [renderValue, List.length_cons, List.length_append] at hf
      omega
    have he := rt_entries k v es f [] rest (by simp) hfe
    simp only [List.nil_append] at he
    rw [he]
termination_by v _ _ _ _ _ _ => sizeOf v
/-- Parsing rendered array elements up to the closing bracket recovers the
element list. -/
theorem rt_items : ∀ (v : PyJson) (vs : List PyJson) (fuel : Nat) (pre rest : List Char),
    (∀ c ∈ pre, isJsonWs c = true) →
    (renderItems (v :: vs)).length + 1 < fuel →
    parseItems fuel (pre ++ (renderItems (v :: vs) ++ (']' :: rest))) = some (v :: vs, rest)
  | _, _, 0, _, _, _, hf => absurd hf (Nat.not_lt_zero _)
  | v, [], f + 1, pre, rest, hws, hf => by
    simp only [parseItems]
    have harg : pre ++ (renderItems [v] ++ (']' :: rest))
        = pre ++ (renderValue v ++ (']' :: rest)) := by
      simp [renderItems, renderItemsNext]
    rw [harg]
    have hfv : (renderValue v).length < f := by
      simp only [renderItems, renderItemsNext, List.append_nil, List.length_append,
        List.length_nil] at hf
      omega
    rw [rt_value v f pre (']' :: rest) hws hfv (numberStop_cons ']' rest (by decide))]
    simp [skipWsChars_stop ']' rest (by decide)]
  | v, w :: ws, f + 1, pre, rest, hws, hf => by
    simp only [parseItems]
    have harg : pre ++ (renderItems (v :: w :: ws) ++ (']' :: rest))
        = pre ++ (renderValue v ++ (',' :: ' ' :: (renderItems (w :: ws) ++ (']' :: rest)))) := by
      simp [renderItems, renderItemsNext_cons]
    rw [harg]
    have hlen : (renderItems (v :: w :: ws)).length
        = (renderValue v).length + 2 + (renderItems (w :: ws)).length := by
      simp [renderItems, renderItemsNext_cons]
      omega
    have hfv : (renderValue v).length < f := by omega
    have hfw : (renderItems (w :: ws)).length + 1 < f := by omega
    rw [rt_value v f pre _ hws hfv (numberStop_cons ',' _ (by decide))]
    have hrec := rt_items w ws f [' '] rest (by simp [isJsonWs]) hfw
    simp only [List.singleton_append] at hrec
    simp [skipWsChars_stop ',' _ (by decide), hrec]
termination_by v vs _ _ _ _ _ => sizeOf v + sizeOf vs
/-- Parsing rendered object members up to the closing brace recovers the
member list. -/
theorem rt_entries : ∀ (k : String) (v : PyJson) (es : List (String × PyJson))
    (fuel : Nat) (pre rest : List Char),
    (∀ c ∈ pre, isJsonWs c = true) →
    (renderEntries ((k, v) :: es)).length + 1 < fuel →
    parseEntries fuel (pre ++ (renderEntries ((k, v) :: es) ++ (rbrace :: rest)))
      = some ((k, v) :: es, rest)
  | _, _, _, 0, _, _, _, hf => absurd hf (Nat.not_lt_zero _)
  | k, v, [], f + 1, pre, rest, hws, hf => by
    simp only [parseEntries]
    rw [skipWsChars_all pre hws]
    have harg : renderEntries [(k, v)] ++ (rbrace :: rest)
        = Char.ofNat 34 :: (k.toList.flatMap py_escape_char
            ++ (Char.ofNat 34 :: (':' :: (' ' :: (renderValue v ++ (rbrace :: rest)))))) := by
      simp [renderEntries, renderEntriesNext, renderString]
    rw [harg, skipWsChars_stop _ _ (by decide)]
    have hfv : (renderValue v).length < f := by
      simp only [renderEntries, renderEntriesNext, renderString, List.length_append,
        List.length_cons, List.append_nil] at hf
      omega
    have hv := rt_value v f [' '] (rbrace :: rest) (by simp [isJsonWs]) hfv
      (numberStop_cons rbrace rest (by decide))
    simp only [List.singleton_append] at hv
    simp [parseStringBody_escaped, skipWsChars_stop ':' _ (by decide), hv,
      skipWsChars_stop rbrace _ (by decide), show (rbrace = ',') = False from by decide]
  | k, v, (k2, v2) :: es, f + 1, pre, rest, hws, hf => by
    simp only [parseEntries]
    rw [skipWsChars_all pre hws]
    have harg : renderEntries ((k, v) :: (k2, v2) :: es) ++ (rbrace :: rest)
        = Char.ofNat 34 :: (k.toList.flatMap py_escape_char
            ++ (Char.ofNat 34 :: (':' :: (' ' :: (renderValue v
              ++ (',' :: (' ' :: (renderEntries ((k2, v2) :: es) ++ (rbrace :: rest))))))))) := by
      simp [renderEntries, renderEntriesNext_cons, renderString]
    rw [harg, skipWsChars_stop _ _ (by decide)]
    have hlen : (renderEntries ((k, v) :: (k2, v2) :: es)).length
        = (renderString k).length + 2 + (renderValue v).length + 2
          + (renderEntries ((k2, v2) :: es)).length := by
      simp [renderEntries, renderEntriesNext_cons, renderString]
      omega
    have hfv : (renderValue v).length < f := by omega
    have hfe : (renderEntries ((k2, v2) :: es)).length + 1 < f := by omega
    have hv := rt_value v f [' ']
      (',' :: (' ' :: (renderEntries ((k2, v2) :: es) ++ (rbrace :: rest))))
      (by simp [isJsonWs]) hfv (numberStop_cons ',' _ (by decide))
    simp only [List.singleton_append] at hv
    have hrec := rt_entries k2 v2 es f [' '] rest (by simp [isJsonWs]) hfe
    simp only [List.singleton_append] at hrec
    simp [parseStringBody_escaped, skipWsChars_stop ':' _ (by decide), hv,
      skipWsChars_stop ',' _ (by decide), hrec]
termination_by _ v es _ _ _ _ _ => sizeOf v + sizeOf es
end

/-- Whole-document codec round-trip: `json.loads` of `json.dumps` of any
(integer-numbered) JSON value recovers the value exactly. -/
theorem json_loads_dumps (v : PyJson) : json_loads (json_dumps v) = some v := by
  have h := rt_value v ((renderValue v).length + 1) [] [] (by simp) (by omega) rfl
  simp only [List.nil_append, List.append_nil] at h
  simp only [json_loads, json_dumps]
  rw [show (String.mk (renderValue v)).toList = renderValue v from rfl]
  rw [h]
  simp [skipWsChars]

/-! ## Claim C6: inbound JSON-string fields round-trip -/

/-- Claim C6: for every inbound field holding a valid JSON string (one the
modelled `json.loads` decodes to a value `v`), reading it through
`parse_json_fields` yields exactly `v`, and re-serializing through
`stringify_json_fields` yields a string that decodes to the very same
value: the round trip loses no keys and changes no value or type. -/
theorem inbound_json_fields_round_trip (s : String) (v : PyJson)
    (h : json_loads s = some v) :
    Inbound.parse_json_fields s = some (.parsed v)
    ∧ json_loads (Inbound.stringify_json_fields (.parsed v)) = some v := by
  constructor
  · have hs : ¬ s = "" := by
      intro he
      subst he
      rw [show json_loads "" = none from rfl] at h
      cases h
    simp [Inbound.parse_json_fields, hs, h]
  · simp only [Inbound.stringify_json_fields]
    exact json_loads_dumps v

/-- Witness for C6 at a concrete field string. -/
theorem inbound_json_fields_round_trip_witness :
    Inbound.parse_json_fields "[1, true, \"x\"]"
      = some (.parsed (.arr [.int 1, .bool true, .str "x"]))
    ∧ json_loads (Inbound.stringify_json_fields
        (.parsed (.arr [.int 1, .bool true, .str "x"])))
      = some (.arr [.int 1, .bool true, .str "x"]) :=
  inbound_json_fields_round_trip "[1, true, \"x\"]"
    (.arr [.int 1, .bool true, .str "x"]) rfl
